import Mathlib

/-!
# Cassette Configuration (CCFG): the configuration resource engine

A shallow embedding of `src/src/main.c`.  A context (`ccfg`) owns three
ledgers (`cbook`) and three lookups (`cdict`), an iteration cursor
`(it_group, it)` and an accumulated error bitmask `err`.

`size_t` values are natural numbers below `2 ^ 64`; arithmetic that can wrap
is written with an explicit `% 2 ^ 64`.  Out-parameters of the C functions
are returned as `Option` values: `none` means the function did not write
through the pointer.  Allocation outcomes, the filesystem and the source
reader are explicit arguments of the functions that depend on them.
-/

namespace CCFG

/-! ## Machine integers and error codes -/

/-- Largest value of `size_t` on the 64-bit target. -/
def SIZE_MAX : Nat := 2 ^ 64 - 1

/-- The `CERR_NONE` member of `enum cerr`: no error bit set. -/
def CERR_NONE : Nat := 0

/-- The C expression `n - 1` on a `size_t` (wraps to `SIZE_MAX` at zero). -/
def size_pred (n : Nat) : Nat := (n + SIZE_MAX) % 2 ^ 64

/-- The C expression `n++` on a `size_t`. -/
def size_succ (n : Nat) : Nat := (n + 1) % 2 ^ 64

/-! ## Ledger (`cbook`) -/

/-- Modelled from the spec: the Ledger (`cbook` of `<cassette/cobj.h>`, whose
implementation is not among the sources).  An ordered list of groups, each an
ordered list of words, and a per-instance error flag. -/
structure cbook where
  groups : List (List String)
  err : Nat
deriving DecidableEq, Repr

/-- Modelled from the spec: the two insertion modes of `cbook_write`.
`CBOOK_NEW` opens a new group for the word, `CBOOK_OLD` appends the word to
the most recent group. -/
inductive cbook_group
  | CBOOK_OLD
  | CBOOK_NEW
deriving DecidableEq, Repr

/-- Append a word to the last group of a list of groups (a first group is
opened when there is none). -/
def append_to_last (str : String) : List (List String) → List (List String)
  | [] => [[str]]
  | [g] => [g ++ [str]]
  | g :: h :: t => g :: append_to_last str (h :: t)

/-- Modelled from the spec: `cbook_error`, the ledger's error flag. -/
def cbook_error (book : cbook) : Nat := book.err

/-- Modelled from the spec: `cbook_write`.  A write on a ledger in error is a
no-op; a write whose allocation fails (`alloc` is the error raised, `CERR_NONE`
when the allocation succeeds) sets the error flag and stores nothing;
otherwise the word is appended after every stored word, earlier words keeping
their positions. -/
def cbook_write (book : cbook) (str : String) (group_mode : cbook_group) (alloc : Nat) : cbook :=
  if book.err ≠ 0 then book
  else if alloc ≠ 0 then { book with err := book.err ||| alloc }
  else
    match group_mode with
    | cbook_group.CBOOK_NEW => { book with groups := book.groups ++ [[str]] }
    | cbook_group.CBOOK_OLD => { book with groups := append_to_last str book.groups }

/-- Modelled from the spec: `cbook_clear` removes every group and leaves the
error flag untouched; like every mutation it is a no-op on a ledger in
error. -/
def cbook_clear (book : cbook) : cbook :=
  if book.err ≠ 0 then book else { book with groups := [] }

/-- Modelled from the spec: `cbook_words_number`, the total number of words
(zero on a ledger in error). -/
def cbook_words_number (book : cbook) : Nat :=
  if book.err ≠ 0 then 0 else book.groups.flatten.length

/-- Modelled from the spec: `cbook_word`, the word at a position counted over
the whole ledger; the empty string when out of range or in error. -/
def cbook_word (book : cbook) (word_index : Nat) : String :=
  if book.err ≠ 0 then "" else book.groups.flatten.getD word_index ""

/-- Modelled from the spec: `cbook_group_length` (`group_length`), the number
of words of a group; zero for an unknown group or a ledger in error. -/
def cbook_group_length (book : cbook) (group_index : Nat) : Nat :=
  if book.err ≠ 0 then 0 else (book.groups.getD group_index []).length

/-- Modelled from the spec: `cbook_word_in_group` (`word_at`), the word at a
position of a group; the empty string when out of range or in error. -/
def cbook_word_in_group (book : cbook) (group_index word_local_index : Nat) : String :=
  if book.err ≠ 0 then "" else (book.groups.getD group_index []).getD word_local_index ""

/-- Every count of the ledger is representable as a `size_t`. -/
def cbook.fits (book : cbook) : Prop :=
  book.groups.length < 2 ^ 64 ∧ ∀ g ∈ book.groups, g.length < 2 ^ 64

/-! ## Lookup (`cdict`) -/

/-- Modelled from the spec: the Lookup (`cdict` of `<cassette/cobj.h>`, whose
implementation is not among the sources).  A map from `(key, scope)` to a
target index, with a per-instance error flag.  At most one slot is kept per
`(key, scope)` pair. -/
structure cdict where
  slots : List ((String × Nat) × Nat)
  err : Nat
deriving DecidableEq, Repr

/-- Modelled from the spec: `cdict_error`, the lookup's error flag. -/
def cdict_error (dict : cdict) : Nat := dict.err

/-- Modelled from the spec: `cdict_find` (`find`).  `some v` stands for a
`true` return with `v` written through the value pointer; `none` stands for a
`false` return with nothing written.  A miss is not an error. -/
def cdict_find (dict : cdict) (key : String) (group : Nat) : Option Nat :=
  if dict.err ≠ 0 then none else dict.slots.lookup (key, group)

/-- Modelled from the spec: `cdict_write` (`write`).  Writing an existing
`(key, scope)` replaces the stored index (last write wins).  `alloc` is the
error raised by the allocation the write may need. -/
def cdict_write (dict : cdict) (key : String) (group value : Nat) (alloc : Nat) : cdict :=
  if dict.err ≠ 0 then dict
  else if alloc ≠ 0 then { dict with err := dict.err ||| alloc }
  else
    { dict with
      slots := ((key, group), value) :: dict.slots.filter (fun s => s.1 ≠ (key, group)) }

/-- Modelled from the spec: `cdict_clear` removes every slot and leaves the
error flag untouched. -/
def cdict_clear (dict : cdict) : cdict :=
  if dict.err ≠ 0 then dict else { dict with slots := [] }

/-! ## Config Context (`ccfg`) -/

/-- The `ccfg` structure: the fields initialised by `ccfg_create` and
`ccfg_placeholder_instance`. -/
structure ccfg where
  params : cbook
  sequences : cbook
  sources : cbook
  keys_params : cdict
  keys_sequences : cdict
  tokens : cdict
  it_group : Nat
  it : Nat
  err : Nat
deriving DecidableEq, Repr

/-- Function `_update_err`: folds the error flag of the six collections into the
context's error state. -/
def _update_err (cfg : ccfg) : ccfg :=
  { cfg with
    err := cfg.err ||| cbook_error cfg.params ||| cbook_error cfg.sequences
      ||| cbook_error cfg.sources ||| cdict_error cfg.keys_params
      ||| cdict_error cfg.keys_sequences ||| cdict_error cfg.tokens }

/-- Function `ccfg_error`. -/
def ccfg_error (cfg : ccfg) : Nat := cfg.err

/-- Function `ccfg_fetch`: resets the cursor, then resolves `namespace` at scope 0 and
`property` at the scope the namespace resolved to.  The second `cdict_find`
writes `it_group` only on a hit. -/
def ccfg_fetch (cfg : ccfg) (nspace property : String) : ccfg :=
  if cfg.err ≠ 0 then cfg
  else
    let cfg := { cfg with it_group := SIZE_MAX, it := SIZE_MAX }
    match cdict_find cfg.keys_sequences nspace 0 with
    | none => cfg
    | some i =>
      match cdict_find cfg.keys_sequences property i with
      | none => cfg
      | some g => { cfg with it_group := g, it := 0 }

/-- Function `ccfg_iterate`: the returned boolean and the context after the call. -/
def ccfg_iterate (cfg : ccfg) : Bool × ccfg :=
  if cfg.err ≠ 0 ∨ cfg.it ≥ cbook_group_length cfg.sequences cfg.it_group then (false, cfg)
  else (true, { cfg with it := size_succ cfg.it })

/-- Function `ccfg_resource`. -/
def ccfg_resource (cfg : ccfg) : String :=
  if cfg.err ≠ 0 then ""
  else cbook_word_in_group cfg.sequences cfg.it_group (size_pred cfg.it)

/-- Function `ccfg_resource_length`. -/
def ccfg_resource_length (cfg : ccfg) : Nat :=
  if cfg.err ≠ 0 then 0
  else cbook_group_length cfg.sequences cfg.it_group

/-- The loop of `_select_source` from index `i`.  `fuel` counts the
iterations left; it starts at `cbook_words_number`, so it reaches zero exactly
when `i` reaches the number of words and the loop exits.  The second
component is the value written through `index` (`none`: nothing written). -/
def _select_source_loop (fopen : String → Bool) (sources : cbook) :
    Nat → Nat → String × Option Nat
  | 0, _ => ("", none)
  | fuel + 1, i =>
    if i < cbook_words_number sources then
      if fopen (cbook_word sources i) then (cbook_word sources i, some i)
      else _select_source_loop fopen sources fuel (i + 1)
    else ("", none)

/-- Function `_select_source`: the first source that `fopen(str, "r")` opens, and the
index written through `index`; the empty string when there is none.  `fopen`
tells which paths the filesystem opens for reading at call time. -/
def _select_source (fopen : String → Bool) (cfg : ccfg) : String × Option Nat :=
  _select_source_loop fopen cfg.sources (cbook_words_number cfg.sources) 0

/-- What `ccfg_can_open_sources` returns and what it writes through its
`index` and `filename` pointers (`none`: nothing written). -/
structure can_open where
  ret : Bool
  index : Option Nat
  filename : Option String
deriving DecidableEq, Repr

/-- Function `ccfg_can_open_sources`.  `str[0] == 0` is emptiness of the string. -/
def ccfg_can_open_sources (fopen : String → Bool) (cfg : ccfg) : can_open :=
  if cfg.err ≠ 0 then ⟨false, none, none⟩
  else if (_select_source fopen cfg).1 = "" then ⟨false, (_select_source fopen cfg).2, none⟩
  else ⟨true, (_select_source fopen cfg).2, some (_select_source fopen cfg).1⟩

/-- Function `ccfg_clear_resources`. -/
def ccfg_clear_resources (cfg : ccfg) : ccfg :=
  if cfg.err ≠ 0 then cfg
  else
    { cfg with
      sequences := cbook_clear cfg.sequences
      keys_sequences := cdict_clear cfg.keys_sequences }

/-- Function `ccfg_clear_params`. -/
def ccfg_clear_params (cfg : ccfg) : ccfg :=
  if cfg.err ≠ 0 then cfg
  else
    { cfg with
      params := cbook_clear cfg.params
      keys_params := cdict_clear cfg.keys_params }

/-- Function `ccfg_clear_sources`. -/
def ccfg_clear_sources (cfg : ccfg) : ccfg :=
  if cfg.err ≠ 0 then cfg
  else { cfg with sources := cbook_clear cfg.sources }

/-- Function `ccfg_load`.  Modelled from the spec: the Source Reader
(`file_parse_root` of `file.h`, not among the sources) is an argument; given
the context with its sequences cleared and the selected path, it yields the
repopulated sequence Ledger and sequence Lookup. -/
def ccfg_load (fopen : String → Bool) (file_parse_root : ccfg → String → cbook × cdict)
    (cfg : ccfg) : ccfg :=
  if cfg.err ≠ 0 then cfg
  else if (_select_source fopen cfg).1 = "" then cfg
  else
    _update_err
      { cfg with
        sequences :=
          (file_parse_root
            { cfg with
              sequences := cbook_clear cfg.sequences
              keys_sequences := cdict_clear cfg.keys_sequences }
            (_select_source fopen cfg).1).1
        keys_sequences :=
          (file_parse_root
            { cfg with
              sequences := cbook_clear cfg.sequences
              keys_sequences := cdict_clear cfg.keys_sequences }
            (_select_source fopen cfg).1).2 }

/-- Function `ccfg_push_param_str`.  `alloc_book` and `alloc_dict` are the errors
raised by the allocations of `cbook_write` and `cdict_write` (`CERR_NONE`
when they succeed). -/
def ccfg_push_param_str (cfg : ccfg) (name str : String) (alloc_book alloc_dict : Nat) : ccfg :=
  if cfg.err ≠ 0 then cfg
  else
    let params := cbook_write cfg.params str cbook_group.CBOOK_OLD alloc_book
    if cbook_error params = 0 then
      _update_err
        { cfg with
          params := params
          keys_params :=
            cdict_write cfg.keys_params name 0 (size_pred (cbook_words_number params)) alloc_dict }
    else _update_err { cfg with params := params }

/-- The text the `printf` conversion `%lli` produces for `l`: the decimal
digits, after a minus sign when `l` is negative. -/
def printf_lli (l : Int) : String :=
  if l < 0 then "-" ++ Nat.repr l.natAbs else Nat.repr l.toNat

/-- The call `snprintf(tmp, size, ...)`: of the formatted text, at most `size - 1`
characters are stored in the buffer (the last byte holds the terminator). -/
def snprintf (size : Nat) (text : String) : String := ⟨text.data.take (size - 1)⟩

/-- Function `ccfg_push_param_long`. -/
def ccfg_push_param_long (cfg : ccfg) (name : String) (l : Int)
    (alloc_book alloc_dict : Nat) : ccfg :=
  ccfg_push_param_str cfg name (snprintf 64 (printf_lli l)) alloc_book alloc_dict

/-- Function `ccfg_push_param_double`.  `printf_f` is the text the conversion `%f`
produces for a double. -/
def ccfg_push_param_double (printf_f : Float → String) (cfg : ccfg) (name : String) (d : Float)
    (alloc_book alloc_dict : Nat) : ccfg :=
  ccfg_push_param_str cfg name (snprintf 64 (printf_f d)) alloc_book alloc_dict

/-- Function `ccfg_push_source`.  `alloc` is the error raised by the allocation of
`cbook_write` (`CERR_NONE` when it succeeds). -/
def ccfg_push_source (cfg : ccfg) (filename : String) (alloc : Nat) : ccfg :=
  if cfg.err ≠ 0 then cfg
  else
    _update_err
      { cfg with sources := cbook_write cfg.sources filename cbook_group.CBOOK_OLD alloc }

/-- The context after `k` consecutive calls of `ccfg_iterate`. -/
def iterate_n : Nat → ccfg → ccfg
  | 0, cfg => cfg
  | k + 1, cfg => (ccfg_iterate (iterate_n k cfg)).2

/-- The context and each of its six collections report no error. -/
def ccfg.error_free (cfg : ccfg) : Prop :=
  cfg.err = 0 ∧ cfg.params.err = 0 ∧ cfg.sequences.err = 0 ∧ cfg.sources.err = 0 ∧
    cfg.keys_params.err = 0 ∧ cfg.keys_sequences.err = 0 ∧ cfg.tokens.err = 0

instance (cfg : ccfg) : Decidable cfg.error_free := by
  unfold ccfg.error_free
  infer_instance

instance (book : cbook) : Decidable book.fits := by
  unfold cbook.fits
  infer_instance

/-- The two-level resolution of `ccfg_fetch` read off the sequence Lookup:
the index bound to `property` in the scope bound to `namespace`. -/
def resolve (dict : cdict) (nspace property : String) : Option Nat :=
  (cdict_find dict nspace 0).bind (fun i => cdict_find dict property i)

/-- A small populated context used to exercise the definitions: two sources,
one namespace `window` (scope 1) with the property `padding` bound to
group 0 = `["4", "8"]`. -/
def demo : ccfg :=
  { params := ⟨[], 0⟩
    sequences := ⟨[["4", "8"], ["red"]], 0⟩
    sources := ⟨[["/missing/a.conf", "/etc/demo.conf"]], 0⟩
    keys_params := ⟨[], 0⟩
    keys_sequences := ⟨[(("window", 0), 1), (("padding", 1), 0), (("color", 1), 1)], 0⟩
    tokens := ⟨[], 0⟩
    it_group := 7
    it := 3
    err := 0 }

/-- The context after a sequence of `ccfg_push_source` calls, in order; each
call comes with the outcome of its allocation. -/
def push_sources (cfg : ccfg) : List (String × Nat) → ccfg
  | [] => cfg
  | push :: rest => push_sources (ccfg_push_source cfg push.1 push.2) rest

/-- A fresh context: every collection empty and error-free, cursor
unpositioned, no error. -/
def demo_fresh : ccfg :=
  { params := ⟨[], 0⟩
    sequences := ⟨[], 0⟩
    sources := ⟨[], 0⟩
    keys_params := ⟨[], 0⟩
    keys_sequences := ⟨[], 0⟩
    tokens := ⟨[], 0⟩
    it_group := SIZE_MAX
    it := SIZE_MAX
    err := 0 }

/-- A filesystem on which `/etc/demo.conf` is the only path that opens. -/
def demo_fopen (path : String) : Bool := path == "/etc/demo.conf"

/-- A filesystem on which no path opens. -/
def no_fopen (_path : String) : Bool := false

/-- A source reader that stores one resource, `window.padding = 4 8`. -/
def demo_reader (_cfg : ccfg) (_source : String) : cbook × cdict :=
  (⟨[["4", "8"]], 0⟩, ⟨[(("window", 0), 1), (("padding", 1), 0)], 0⟩)

/-- The demo context with an error bit set, its collections and cursor
unchanged. -/
def demo_failed : ccfg := { demo with err := 4 }

/-- A stand-in for the `%f` conversion. -/
def demo_printf_f (_d : Float) : String := "0.000000"

/-- The calls of the public interface that take the context by non-const
pointer, `ccfg_repair` excepted, each with its arguments and the outcome of
its allocations. -/
inductive ccfg_call
  | push_source (filename : String) (alloc : Nat)
  | push_param_str (name str : String) (alloc_book alloc_dict : Nat)
  | push_param_long (name : String) (l : Int) (alloc_book alloc_dict : Nat)
  | push_param_double (name : String) (d : Float) (alloc_book alloc_dict : Nat)
  | clear_resources
  | clear_params
  | clear_sources
  | fetch (nspace property : String)
  | iterate
  | load

/-- The context after a call, for a given filesystem, source reader and `%f`
conversion. -/
def ccfg_call.run (fopen : String → Bool) (file_parse_root : ccfg → String → cbook × cdict)
    (printf_f : Float → String) : ccfg_call → ccfg → ccfg
  | ccfg_call.push_source filename alloc, cfg => ccfg_push_source cfg filename alloc
  | ccfg_call.push_param_str name str alloc_book alloc_dict, cfg =>
    ccfg_push_param_str cfg name str alloc_book alloc_dict
  | ccfg_call.push_param_long name l alloc_book alloc_dict, cfg =>
    ccfg_push_param_long cfg name l alloc_book alloc_dict
  | ccfg_call.push_param_double name d alloc_book alloc_dict, cfg =>
    ccfg_push_param_double printf_f cfg name d alloc_book alloc_dict
  | ccfg_call.clear_resources, cfg => ccfg_clear_resources cfg
  | ccfg_call.clear_params, cfg => ccfg_clear_params cfg
  | ccfg_call.clear_sources, cfg => ccfg_clear_sources cfg
  | ccfg_call.fetch nspace property, cfg => ccfg_fetch cfg nspace property
  | ccfg_call.iterate, cfg => (ccfg_iterate cfg).2
  | ccfg_call.load, cfg => ccfg_load fopen file_parse_root cfg

/-! ## Construction, cloning and repair -/

/-- Modelled from the spec: the invalid-handle bit `CERR_INVALID` of
`enum cerr` (declared in `<cassette/cobj.h>`, not among the sources). -/
def CERR_INVALID : Nat := 1

/-- Modelled from the spec: `CBOOK_PLACEHOLDER`, the sentinel ledger; it holds
nothing and carries the invalid-handle error. -/
def CBOOK_PLACEHOLDER : cbook := { groups := [], err := CERR_INVALID }

/-- Modelled from the spec: `CDICT_PLACEHOLDER`, the sentinel lookup; it holds
nothing and carries the invalid-handle error. -/
def CDICT_PLACEHOLDER : cdict := { slots := [], err := CERR_INVALID }

/-- The sentinel `ccfg_placeholder_instance`. -/
def ccfg_placeholder_instance : ccfg :=
  { params := CBOOK_PLACEHOLDER
    sequences := CBOOK_PLACEHOLDER
    sources := CBOOK_PLACEHOLDER
    keys_params := CDICT_PLACEHOLDER
    keys_sequences := CDICT_PLACEHOLDER
    tokens := CDICT_PLACEHOLDER
    it_group := SIZE_MAX
    it := SIZE_MAX
    err := CERR_INVALID }

/-- The context a pointer returned by `ccfg_create` or `ccfg_clone` points
to: `none` is the pointer `CCFG_PLACEHOLDER` to the sentinel, `some cfg` the
pointer to a newly allocated context. -/
def ccfg_deref : Option ccfg → ccfg
  | none => ccfg_placeholder_instance
  | some cfg => cfg

/-- Modelled from the spec: `cbook_repair` clears the recoverable part of the
ledger's error flag and discards no data. -/
def cbook_repair (book : cbook) : cbook := { book with err := book.err &&& CERR_INVALID }

/-- Modelled from the spec: `cdict_repair` clears the recoverable part of the
lookup's error flag and discards no data. -/
def cdict_repair (dict : cdict) : cdict := { dict with err := dict.err &&& CERR_INVALID }

/-- Function `ccfg_repair`. -/
def ccfg_repair (cfg : ccfg) : ccfg :=
  _update_err
    { cfg with
      err := cfg.err &&& CERR_INVALID
      params := cbook_repair cfg.params
      sequences := cbook_repair cfg.sequences
      sources := cbook_repair cfg.sources
      keys_params := cdict_repair cfg.keys_params
      keys_sequences := cdict_repair cfg.keys_sequences
      tokens := cdict_repair cfg.tokens }

/-- Modelled from the spec: `cbook_create` yields an empty ledger; `alloc` is
the error raised by its allocation (`CERR_NONE` when it succeeds). -/
def cbook_create (alloc : Nat) : cbook := { groups := [], err := alloc }

/-- Modelled from the spec: `cdict_create` yields an empty lookup; `alloc` is
the error raised by its allocation (`CERR_NONE` when it succeeds). -/
def cdict_create (alloc : Nat) : cdict := { slots := [], err := alloc }

/-- Modelled from the spec: `cbook_clone` copies the ledger; the copy carries
the error flag of the original, to which a failed allocation adds its error,
the content being then lost. -/
def cbook_clone (book : cbook) (alloc : Nat) : cbook :=
  { groups := if alloc ≠ 0 then [] else book.groups, err := book.err ||| alloc }

/-- Modelled from the spec: `cdict_clone` copies the lookup; the copy carries
the error flag of the original, to which a failed allocation adds its error,
the content being then lost. -/
def cdict_clone (dict : cdict) (alloc : Nat) : cdict :=
  { slots := if alloc ≠ 0 then [] else dict.slots, err := dict.err ||| alloc }

/-- Function `ccfg_create`.  `malloc_ok` tells whether the allocation of the
context succeeds, the `alloc_` arguments are the errors raised when the five
collections are created, and `token_dict` is the lookup that
`token_dict_create` (of `token.h`, not among the sources) returns. -/
def ccfg_create (malloc_ok : Bool)
    (alloc_params alloc_sequences alloc_sources alloc_keys_params alloc_keys_sequences : Nat)
    (token_dict : cdict) : Option ccfg :=
  if malloc_ok = false then none
  else if
    (_update_err
      { params := cbook_create alloc_params
        sequences := cbook_create alloc_sequences
        sources := cbook_create alloc_sources
        keys_params := cdict_create alloc_keys_params
        keys_sequences := cdict_create alloc_keys_sequences
        tokens := token_dict
        it_group := SIZE_MAX
        it := SIZE_MAX
        err := CERR_NONE }).err ≠ 0
  then none
  else
    some
      (_update_err
        { params := cbook_create alloc_params
          sequences := cbook_create alloc_sequences
          sources := cbook_create alloc_sources
          keys_params := cdict_create alloc_keys_params
          keys_sequences := cdict_create alloc_keys_sequences
          tokens := token_dict
          it_group := SIZE_MAX
          it := SIZE_MAX
          err := CERR_NONE })

/-- Function `ccfg_clone`.  `malloc_ok` tells whether the allocation of the
new context succeeds, the `alloc_` arguments are the errors raised when the
six collections are copied. -/
def ccfg_clone (cfg : ccfg) (malloc_ok : Bool)
    (alloc_params alloc_sequences alloc_sources alloc_keys_params alloc_keys_sequences
      alloc_tokens : Nat) : Option ccfg :=
  if malloc_ok = false then none
  else if
    (_update_err
      { params := cbook_clone cfg.params alloc_params
        sequences := cbook_clone cfg.sequences alloc_sequences
        sources := cbook_clone cfg.sources alloc_sources
        keys_params := cdict_clone cfg.keys_params alloc_keys_params
        keys_sequences := cdict_clone cfg.keys_sequences alloc_keys_sequences
        tokens := cdict_clone cfg.tokens alloc_tokens
        it_group := cfg.it_group
        it := cfg.it
        err := CERR_NONE }).err ≠ 0
  then none
  else
    some
      (_update_err
        { params := cbook_clone cfg.params alloc_params
          sequences := cbook_clone cfg.sequences alloc_sequences
          sources := cbook_clone cfg.sources alloc_sources
          keys_params := cdict_clone cfg.keys_params alloc_keys_params
          keys_sequences := cdict_clone cfg.keys_sequences alloc_keys_sequences
          tokens := cdict_clone cfg.tokens alloc_tokens
          it_group := cfg.it_group
          it := cfg.it
          err := CERR_NONE })

/-- A call of the public interface on a context: one of the calls of
`ccfg_call`, or `ccfg_repair`. -/
inductive ccfg_op
  | call (c : ccfg_call)
  | repair

/-- The context after one operation. -/
def ccfg_op.run (fopen : String → Bool) (file_parse_root : ccfg → String → cbook × cdict)
    (printf_f : Float → String) : ccfg_op → ccfg → ccfg
  | ccfg_op.call c, cfg => c.run fopen file_parse_root printf_f cfg
  | ccfg_op.repair, cfg => ccfg_repair cfg

/-- The context after a finite sequence of operations, applied in order. -/
def run_ops (fopen : String → Bool) (file_parse_root : ccfg → String → cbook × cdict)
    (printf_f : Float → String) : List ccfg_op → ccfg → ccfg
  | [], cfg => cfg
  | op :: rest, cfg =>
    run_ops fopen file_parse_root printf_f rest (op.run fopen file_parse_root printf_f cfg)

/-- The demo context after an allocation failure in the parameter Ledger:
the ledger and the context carry error bit 2. -/
def demo_alloc_failed : ccfg := { demo with params := { groups := [["1"]], err := 4 }, err := 4 }

/-! ## Contexts in memory -/

/-- The heap: the ledgers and the lookups allocated so far.  A pointer to a
collection is its index. -/
structure memory where
  books : List cbook
  dicts : List cdict
deriving DecidableEq, Repr

/-- The `ccfg` structure as it lies in memory: six pointers to its
collections, the cursor and the error state. -/
structure ccfg_ptr where
  params : Nat
  sequences : Nat
  sources : Nat
  keys_params : Nat
  keys_sequences : Nat
  tokens : Nat
  it_group : Nat
  it : Nat
  err : Nat
deriving DecidableEq, Repr

/-- Every pointer of the structure points to an allocated collection. -/
def ccfg_ptr.allocated (p : ccfg_ptr) (m : memory) : Prop :=
  p.params < m.books.length ∧ p.sequences < m.books.length ∧ p.sources < m.books.length ∧
    p.keys_params < m.dicts.length ∧ p.keys_sequences < m.dicts.length ∧
    p.tokens < m.dicts.length

instance (p : ccfg_ptr) (m : memory) : Decidable (p.allocated m) := by
  unfold ccfg_ptr.allocated
  infer_instance

/-- The context a structure denotes: each collection is read through its
pointer. -/
def memory.read (m : memory) (p : ccfg_ptr) : ccfg :=
  { params := m.books.getD p.params CBOOK_PLACEHOLDER
    sequences := m.books.getD p.sequences CBOOK_PLACEHOLDER
    sources := m.books.getD p.sources CBOOK_PLACEHOLDER
    keys_params := m.dicts.getD p.keys_params CDICT_PLACEHOLDER
    keys_sequences := m.dicts.getD p.keys_sequences CDICT_PLACEHOLDER
    tokens := m.dicts.getD p.tokens CDICT_PLACEHOLDER
    it_group := p.it_group
    it := p.it
    err := p.err }

/-- The memory and the structure after an operation left the context `c`:
each collection is stored through its pointer, the cursor and the error state
in the structure. -/
def memory.write (m : memory) (p : ccfg_ptr) (c : ccfg) : memory × ccfg_ptr :=
  ({ books :=
        ((m.books.set p.params c.params).set p.sequences c.sequences).set p.sources c.sources
     dicts :=
        ((m.dicts.set p.keys_params c.keys_params).set p.keys_sequences c.keys_sequences).set
          p.tokens c.tokens },
   { p with it_group := c.it_group, it := c.it, err := c.err })

/-- The memory after a new context was built, and the structure of that
context: its six collections are new objects, placed after the existing
ones. -/
def memory.alloc (m : memory) (c : ccfg) : memory × ccfg_ptr :=
  ({ books := m.books ++ [c.params, c.sequences, c.sources]
     dicts := m.dicts ++ [c.keys_params, c.keys_sequences, c.tokens] },
   { params := m.books.length
     sequences := m.books.length + 1
     sources := m.books.length + 2
     keys_params := m.dicts.length
     keys_sequences := m.dicts.length + 1
     tokens := m.dicts.length + 2
     it_group := c.it_group
     it := c.it
     err := c.err })

/-- An operation applied through a pointer to a context in memory. -/
def ccfg_op.run_at (fopen : String → Bool) (file_parse_root : ccfg → String → cbook × cdict)
    (printf_f : Float → String) (op : ccfg_op) (m : memory) (p : ccfg_ptr) : memory × ccfg_ptr :=
  m.write p (op.run fopen file_parse_root printf_f (m.read p))

/-- Function `ccfg_clone` on a context in memory: the pointers of the new
structure are those `cbook_clone` and `cdict_clone` return, each a new
object; `it_group` and `it` are copied.  `none` is `CCFG_PLACEHOLDER`, the
partly built clone having been destroyed. -/
def ccfg_clone_at (m : memory) (p : ccfg_ptr) (malloc_ok : Bool)
    (alloc_params alloc_sequences alloc_sources alloc_keys_params alloc_keys_sequences
      alloc_tokens : Nat) : memory × Option ccfg_ptr :=
  match ccfg_clone (m.read p) malloc_ok alloc_params alloc_sequences alloc_sources
      alloc_keys_params alloc_keys_sequences alloc_tokens with
  | none => (m, none)
  | some c => ((m.alloc c).1, some (m.alloc c).2)

/-- A sequence of operations applied, in order, through a pointer to a
context in memory. -/
def run_ops_at (fopen : String → Bool) (file_parse_root : ccfg → String → cbook × cdict)
    (printf_f : Float → String) : List ccfg_op → memory → ccfg_ptr → memory × ccfg_ptr
  | [], m, p => (m, p)
  | op :: rest, m, p =>
    run_ops_at fopen file_parse_root printf_f rest
      (op.run_at fopen file_parse_root printf_f m p).1
      (op.run_at fopen file_parse_root printf_f m p).2

/-- The collections of the structure are among the first `nb` ledgers and
the first `nd` lookups of the memory. -/
def ccfg_ptr.below (p : ccfg_ptr) (nb nd : Nat) : Prop :=
  p.params < nb ∧ p.sequences < nb ∧ p.sources < nb ∧
    p.keys_params < nd ∧ p.keys_sequences < nd ∧ p.tokens < nd

/-- The collections of the structure come after the first `nb` ledgers and
the first `nd` lookups of the memory. -/
def ccfg_ptr.above (q : ccfg_ptr) (nb nd : Nat) : Prop :=
  nb ≤ q.params ∧ nb ≤ q.sequences ∧ nb ≤ q.sources ∧
    nd ≤ q.keys_params ∧ nd ≤ q.keys_sequences ∧ nd ≤ q.tokens

/-- A memory that holds the collections of the demo context. -/
def demo_memory : memory :=
  { books := [demo.params, demo.sequences, demo.sources]
    dicts := [demo.keys_params, demo.keys_sequences, demo.tokens] }

/-- The structure of the demo context in `demo_memory`, the cursor on the
first value of `window.padding`. -/
def demo_ptr : ccfg_ptr :=
  { params := 0, sequences := 1, sources := 2, keys_params := 0, keys_sequences := 1, tokens := 2,
    it_group := 0, it := 1, err := 0 }

/-- The memory after the demo context was cloned. -/
def demo_clone_memory : memory := (demo_memory.alloc (demo_memory.read demo_ptr)).1

/-- The structure of the clone of the demo context. -/
def demo_clone_ptr : ccfg_ptr := (demo_memory.alloc (demo_memory.read demo_ptr)).2

/-! ## Typed resource bindings (`config.c`) -/

/-- The kinds of `enum _value_t`, in the order of their declaration. -/
inductive _value_t
  | _STRING
  | _COLOR
  | _BOOL
  | _LENGTH
  | _POSITION
  | _DOUBLE
  | _UDOUBLE
  | _RATIO
  | _ANTIALIAS
  | _SUBPIXEL
deriving DecidableEq, Repr

/-- The integer value of a kind of `enum _value_t`, which is also the group
of its words in the dictionary `_words`. -/
def _value_t.toNat : _value_t → Nat
  | _value_t._STRING => 0
  | _value_t._COLOR => 1
  | _value_t._BOOL => 2
  | _value_t._LENGTH => 3
  | _value_t._POSITION => 4
  | _value_t._DOUBLE => 5
  | _value_t._UDOUBLE => 6
  | _value_t._RATIO => 7
  | _value_t._ANTIALIAS => 8
  | _value_t._SUBPIXEL => 9

/-- The descriptor `struct _resource_t`; `target` is the address of the
destination. -/
structure _resource_t where
  nspace : String
  name : String
  type : _value_t
  target : Nat
deriving DecidableEq, Repr

/-- The content of a destination, by the C type `_fetch` writes it with.
`Color` stands for `cobj_color_t`, declared in `<cassette/cobj.h>`. -/
inductive target_value (Color : Type)
  | string (s : String)
  | color (c : Color)
  | bool (b : Bool)
  | uint16 (n : Nat)
  | int16 (i : Int)
  | double (d : Float)
  | int (i : Int)

/-- The functions and constants `_fetch` uses that are not among the
sources. -/
structure fetch_env (Color : Type) where
  CGUI_CONFIG_MAX_STRING : Nat
  cobj_color_convert_str : String → Color
  strtod : String → Float
  util_str_to_long : String → Int → Int → Int
  util_str_to_double : String → Float → Float → Float

/-- The constant `DBL_MIN` of `<float.h>`. -/
def DBL_MIN : Float := 2.2250738585072014e-308

/-- The constant `DBL_MAX` of `<float.h>`. -/
def DBL_MAX : Float := 1.7976931348623157e308

/-- The constant `UINT16_MAX`. -/
def UINT16_MAX : Int := 65535

/-- The constant `INT16_MIN`. -/
def INT16_MIN : Int := -32768

/-- The constant `INT16_MAX`. -/
def INT16_MAX : Int := 32767

/-- The C conversion of a `long` to `uint16_t`. -/
def to_uint16 (v : Int) : Nat := (v % 65536).toNat

/-- The C conversion of a `long` to `int16_t`. -/
def to_int16 (v : Int) : Int := (v + 32768) % 65536 - 32768

/-- The C conversion of a `size_t` to `int`. -/
def to_int (v : Nat) : Int := ((v : Int) + 2147483648) % 4294967296 - 2147483648

/-- Modelled from the spec: `ccfg_fetch_resource`, the name under which
`config.c` calls the engine's `fetch`, which `main.c` implements as
`ccfg_fetch`. -/
def ccfg_fetch_resource (cfg : ccfg) (nspace property : String) : ccfg :=
  ccfg_fetch cfg nspace property

/-- Modelled from the spec: `ccfg_pick_next_resource_value`, the name under
which `config.c` calls the engine's `advance`, which `main.c` implements as
`ccfg_iterate`. -/
def ccfg_pick_next_resource_value (cfg : ccfg) : Bool × ccfg := ccfg_iterate cfg

/-- Modelled from the spec: `ccfg_get_resource_value`, the name under which
`config.c` calls the engine's `current_value`, which `main.c` implements as
`ccfg_resource`. -/
def ccfg_get_resource_value (cfg : ccfg) : String := ccfg_resource cfg

/-- Modelled from the spec: `cobj_dictionary_find`, the Lookup's `find` under
the name `config.c` calls it; nothing is written through the value pointer on
a miss. -/
def cobj_dictionary_find (dict : cdict) (key : String) (group : Nat) : Option Nat :=
  cdict_find dict key group

/-- Modelled from the spec: `cobj_dictionary_write`, the Lookup's `write`
under the name `config.c` calls it. -/
def cobj_dictionary_write (dict : cdict) (key : String) (group value : Nat) (alloc : Nat) :
    cdict :=
  cdict_write dict key group value alloc

/-- The static variables of `config.c` that `_fetch` reads or writes: the
engine (`parser` here, for the static `_parser`), the dictionary `_words`,
and the content of `_config` by address. -/
structure config_state (Color : Type) where
  parser : ccfg
  _words : cdict
  _config : Nat → target_value Color

/-- The `switch` of `_fetch`: the content of `_config` after the value `str`
was converted for the kind of the descriptor and stored at its target.
`ref` is the content of the local variable `ref` when `_fetch` is entered; it
is never initialised, and `cobj_dictionary_find` overwrites it only on a
hit. -/
def _fetch_switch {Color : Type} (env : fetch_env Color) (_words : cdict) (ref : Nat)
    (_config : Nat → target_value Color) (resource : _resource_t) (str : String) :
    Nat → target_value Color :=
  match resource.type with
  | _value_t._STRING =>
    Function.update _config resource.target
      (target_value.string (snprintf env.CGUI_CONFIG_MAX_STRING str))
  | _value_t._COLOR =>
    Function.update _config resource.target (target_value.color (env.cobj_color_convert_str str))
  | _value_t._BOOL =>
    Function.update _config resource.target (target_value.bool (env.strtod str != 0.0))
  | _value_t._LENGTH =>
    Function.update _config resource.target
      (target_value.uint16 (to_uint16 (env.util_str_to_long str 0 UINT16_MAX)))
  | _value_t._POSITION =>
    Function.update _config resource.target
      (target_value.int16 (to_int16 (env.util_str_to_long str INT16_MIN INT16_MAX)))
  | _value_t._DOUBLE =>
    Function.update _config resource.target
      (target_value.double (env.util_str_to_double str DBL_MIN DBL_MAX))
  | _value_t._UDOUBLE =>
    Function.update _config resource.target
      (target_value.double (env.util_str_to_double str 0.0 DBL_MAX))
  | _value_t._RATIO =>
    Function.update _config resource.target
      (target_value.double (env.util_str_to_double str 0.0 1.0))
  | _value_t._ANTIALIAS =>
    Function.update _config resource.target
      (target_value.int
        (to_int ((cobj_dictionary_find _words str resource.type.toNat).getD ref)))
  | _value_t._SUBPIXEL =>
    Function.update _config resource.target
      (target_value.int
        (to_int ((cobj_dictionary_find _words str resource.type.toNat).getD ref)))

/-- Function `_fetch` of `config.c`, on the static variables it uses. -/
def _fetch {Color : Type} (env : fetch_env Color) (ref : Nat) (st : config_state Color)
    (resource : _resource_t) : config_state Color :=
  if (ccfg_pick_next_resource_value
      (ccfg_fetch_resource st.parser resource.nspace resource.name)).1 = true then
    { st with
      parser :=
        (ccfg_pick_next_resource_value
          (ccfg_fetch_resource st.parser resource.nspace resource.name)).2
      _config :=
        _fetch_switch env st._words ref st._config resource
          (ccfg_get_resource_value
            (ccfg_pick_next_resource_value
              (ccfg_fetch_resource st.parser resource.nspace resource.name)).2) }
  else
    { st with
      parser :=
        (ccfg_pick_next_resource_value
          (ccfg_fetch_resource st.parser resource.nspace resource.name)).2 }

/-- The codes of `<cassette/cgui.h>` that `config_init` registers for the
antialias and subpixel words. -/
structure cgui_config_codes where
  CGUI_CONFIG_ANTIALIAS_NONE : Nat
  CGUI_CONFIG_ANTIALIAS_GRAY : Nat
  CGUI_CONFIG_ANTIALIAS_SUBPIXEL : Nat
  CGUI_CONFIG_SUBPIXEL_RGB : Nat
  CGUI_CONFIG_SUBPIXEL_BGR : Nat
  CGUI_CONFIG_SUBPIXEL_VRGB : Nat
  CGUI_CONFIG_SUBPIXEL_VBGR : Nat

/-- The dictionary `_words` that `config_init` builds, when no allocation
fails: seven `cobj_dictionary_write` calls on a new dictionary. -/
def config_init_words (codes : cgui_config_codes) : cdict :=
  cobj_dictionary_write
    (cobj_dictionary_write
      (cobj_dictionary_write
        (cobj_dictionary_write
          (cobj_dictionary_write
            (cobj_dictionary_write
              (cobj_dictionary_write (cdict_create 0)
                "none" _value_t._ANTIALIAS.toNat codes.CGUI_CONFIG_ANTIALIAS_NONE 0)
              "gray" _value_t._ANTIALIAS.toNat codes.CGUI_CONFIG_ANTIALIAS_GRAY 0)
            "subpixel" _value_t._ANTIALIAS.toNat codes.CGUI_CONFIG_ANTIALIAS_SUBPIXEL 0)
          "rgb" _value_t._SUBPIXEL.toNat codes.CGUI_CONFIG_SUBPIXEL_RGB 0)
        "bgr" _value_t._SUBPIXEL.toNat codes.CGUI_CONFIG_SUBPIXEL_BGR 0)
      "vrgb" _value_t._SUBPIXEL.toNat codes.CGUI_CONFIG_SUBPIXEL_VRGB 0)
    "vbgr" _value_t._SUBPIXEL.toNat codes.CGUI_CONFIG_SUBPIXEL_VBGR 0

/-- Stand-ins for the collaborators of `_fetch`, with `Unit` for the colour
type. -/
def demo_env : fetch_env Unit :=
  { CGUI_CONFIG_MAX_STRING := 128
    cobj_color_convert_str := fun _ => ()
    strtod := fun _ => 0.0
    util_str_to_long := fun str lo hi => max lo (min hi (str.toInt?.getD 0))
    util_str_to_double := fun _ lo _ => lo }

/-- Distinct codes for the seven registered words. -/
def demo_codes : cgui_config_codes :=
  { CGUI_CONFIG_ANTIALIAS_NONE := 10
    CGUI_CONFIG_ANTIALIAS_GRAY := 11
    CGUI_CONFIG_ANTIALIAS_SUBPIXEL := 12
    CGUI_CONFIG_SUBPIXEL_RGB := 20
    CGUI_CONFIG_SUBPIXEL_BGR := 21
    CGUI_CONFIG_SUBPIXEL_VRGB := 22
    CGUI_CONFIG_SUBPIXEL_VBGR := 23 }

/-- An engine loaded with `font.antialias_mode = rgb` (group 0),
`font.subpixel_mode = bgr vrgb` (group 1) and `font.size` without value
(group 2). -/
def demo_font : ccfg :=
  { demo_fresh with
    sequences := { groups := [["rgb"], ["bgr", "vrgb"], []], err := 0 }
    keys_sequences :=
      { slots :=
          [(("font", 0), 1), (("antialias_mode", 1), 0), (("subpixel_mode", 1), 1),
            (("size", 1), 2)]
        err := 0 } }

/-- The static variables of `config.c` after `config_init` and `ccfg_load`
on `demo_font`, every destination holding the default code 11. -/
def demo_state : config_state Unit :=
  { parser := demo_font
    _words := config_init_words demo_codes
    _config := fun _ => target_value.int 11 }

/-! ## Auxiliary facts -/

theorem resolve_some {dict : cdict} {nspace property : String} {g : Nat}
    (h : resolve dict nspace property = some g) :
    ∃ i, cdict_find dict nspace 0 = some i ∧ cdict_find dict property i = some g := by
  unfold resolve at h
  cases hi : cdict_find dict nspace 0 with
  | none => simp [hi] at h
  | some i => exact ⟨i, rfl, by simpa [hi] using h⟩

theorem ccfg_fetch_hit (cfg : ccfg) (nspace property : String) (g : Nat) (herr : cfg.err = 0)
    (h : resolve cfg.keys_sequences nspace property = some g) :
    ccfg_fetch cfg nspace property = { cfg with it_group := g, it := 0 } := by
  obtain ⟨i, hi, hg⟩ := resolve_some h
  simp [ccfg_fetch, herr, hi, hg]

theorem ccfg_fetch_miss (cfg : ccfg) (nspace property : String) (herr : cfg.err = 0)
    (h : resolve cfg.keys_sequences nspace property = none) :
    ccfg_fetch cfg nspace property = { cfg with it_group := SIZE_MAX, it := SIZE_MAX } := by
  unfold resolve at h
  cases hi : cdict_find cfg.keys_sequences nspace 0 with
  | none => simp [ccfg_fetch, herr, hi]
  | some i =>
    have hg : cdict_find cfg.keys_sequences property i = none := by simpa [hi] using h
    simp [ccfg_fetch, herr, hi, hg]

theorem getD_length_lt_of_fits {book : cbook} (hfit : book.fits) (g : Nat) :
    (book.groups.getD g []).length < 2 ^ 64 := by
  by_cases hg : g < book.groups.length
  · have hmem : book.groups.getD g [] ∈ book.groups := by
      rw [List.getD_eq_getElem _ _ hg]
      exact List.getElem_mem _
    exact hfit.2 _ hmem
  · rw [List.getD_eq_default _ _ (Nat.le_of_not_lt hg)]
    simp

theorem cbook_group_length_lt_of_fits {book : cbook} (hfit : book.fits) (g : Nat) :
    cbook_group_length book g < 2 ^ 64 := by
  unfold cbook_group_length
  split
  · norm_num
  · exact getD_length_lt_of_fits hfit g

theorem cbook_group_length_SIZE_MAX {book : cbook} (hfit : book.fits) :
    cbook_group_length book SIZE_MAX = 0 := by
  unfold cbook_group_length
  split
  · rfl
  · have h : book.groups.length ≤ SIZE_MAX := by
      have := hfit.1
      unfold SIZE_MAX
      omega
    rw [List.getD_eq_default _ _ h]
    rfl

theorem iterate_n_cursor (cfg : ccfg) (g : Nat) (herr : cfg.err = 0)
    (hlen : cbook_group_length cfg.sequences g < 2 ^ 64) (k : Nat) :
    iterate_n k { cfg with it_group := g, it := 0 } =
      { cfg with it_group := g, it := min k (cbook_group_length cfg.sequences g) } := by
  induction k with
  | zero => simp [iterate_n]
  | succ k ih =>
    simp only [iterate_n, ih, ccfg_iterate]
    by_cases hk : k < cbook_group_length cfg.sequences g
    · have h1 : min k (cbook_group_length cfg.sequences g) = k := Nat.min_eq_left (Nat.le_of_lt hk)
      have h2 : min (k + 1) (cbook_group_length cfg.sequences g) = k + 1 := Nat.min_eq_left hk
      have hk2 : ¬ cbook_group_length cfg.sequences g ≤ k := Nat.not_le.mpr hk
      have h3 : (k + 1) % 2 ^ 64 = k + 1 := Nat.mod_eq_of_lt (by omega)
      norm_num at h3
      simp [herr, h1, h2, hk2, size_succ, h3]
    · have hk2 : cbook_group_length cfg.sequences g ≤ k := Nat.le_of_not_lt hk
      have h1 : min k (cbook_group_length cfg.sequences g) = cbook_group_length cfg.sequences g :=
        Nat.min_eq_right hk2
      have h2 : min (k + 1) (cbook_group_length cfg.sequences g) =
          cbook_group_length cfg.sequences g := Nat.min_eq_right (by omega)
      simp [herr, h1, h2]

/-! ## Fetch -/

/-- C1: on an error-free context, after `ccfg_fetch` the cursor is `(g, 0)`
when the sequence Lookup resolves the namespace at scope 0 to some `i` and
the property at scope `i` to `g`; when the namespace is missing, or the
property is missing under `i`, the cursor is `(SIZE_MAX, SIZE_MAX)`, whatever
it was before the call. -/
theorem ccfg_fetch_cursor (cfg : ccfg) (nspace property : String) (herr : cfg.err = 0) :
    (∀ i g, cdict_find cfg.keys_sequences nspace 0 = some i →
        cdict_find cfg.keys_sequences property i = some g →
        (ccfg_fetch cfg nspace property).it_group = g ∧
        (ccfg_fetch cfg nspace property).it = 0) ∧
    (cdict_find cfg.keys_sequences nspace 0 = none →
        (ccfg_fetch cfg nspace property).it_group = SIZE_MAX ∧
        (ccfg_fetch cfg nspace property).it = SIZE_MAX) ∧
    (∀ i, cdict_find cfg.keys_sequences nspace 0 = some i →
        cdict_find cfg.keys_sequences property i = none →
        (ccfg_fetch cfg nspace property).it_group = SIZE_MAX ∧
        (ccfg_fetch cfg nspace property).it = SIZE_MAX) := by
  refine ⟨?_, ?_, ?_⟩
  · intro i g hi hg
    simp [ccfg_fetch, herr, hi, hg]
  · intro hn
    simp [ccfg_fetch, herr, hn]
  · intro i hi hg
    simp [ccfg_fetch, herr, hi, hg]

/-- C1 at the demo context: `window.padding` resolves through scope 1 to
group 0, and the stale cursor `(7, 3)` is replaced by `(0, 0)`. -/
theorem ccfg_fetch_cursor_witness :
    demo.err = 0 ∧
    cdict_find demo.keys_sequences "window" 0 = some 1 ∧
    cdict_find demo.keys_sequences "padding" 1 = some 0 ∧
    (ccfg_fetch demo "window" "padding").it_group = 0 ∧
    (ccfg_fetch demo "window" "padding").it = 0 :=
  ⟨by decide, by decide, by decide,
   (ccfg_fetch_cursor demo "window" "padding" (by decide)).1 1 0 (by decide) (by decide)⟩

/-! ## Iteration -/

/-- C2: on an error-free context, after a `ccfg_fetch` that matches a group of
`n` values (`n` is also what `ccfg_resource_length` returns), the call of
`ccfg_iterate` that follows `k` earlier calls returns true and moves the
position from `k` to `k + 1` when `k < n`, and returns false and leaves the
context unchanged when `n ≤ k`: true exactly `n` times, then false. -/
theorem ccfg_iterate_count (cfg : ccfg) (nspace property : String) (g : Nat)
    (herr : cfg.err = 0) (hfit : cfg.sequences.fits)
    (hg : resolve cfg.keys_sequences nspace property = some g) (k : Nat) :
    ccfg_resource_length (ccfg_fetch cfg nspace property) = cbook_group_length cfg.sequences g ∧
    (k < cbook_group_length cfg.sequences g →
      (iterate_n k (ccfg_fetch cfg nspace property)).it = k ∧
      ccfg_iterate (iterate_n k (ccfg_fetch cfg nspace property)) =
        (true, { iterate_n k (ccfg_fetch cfg nspace property) with it := k + 1 })) ∧
    (cbook_group_length cfg.sequences g ≤ k →
      ccfg_iterate (iterate_n k (ccfg_fetch cfg nspace property)) =
        (false, iterate_n k (ccfg_fetch cfg nspace property))) := by
  have hlen := cbook_group_length_lt_of_fits hfit g
  rw [ccfg_fetch_hit cfg nspace property g herr hg, iterate_n_cursor cfg g herr hlen k]
  refine ⟨by simp [ccfg_resource_length, herr], ?_, ?_⟩
  · intro hk
    have h1 : min k (cbook_group_length cfg.sequences g) = k := Nat.min_eq_left (Nat.le_of_lt hk)
    have hk2 : ¬ cbook_group_length cfg.sequences g ≤ k := Nat.not_le.mpr hk
    have h3 : (k + 1) % 2 ^ 64 = k + 1 := Nat.mod_eq_of_lt (by omega)
    norm_num at h3
    simp [ccfg_iterate, herr, h1, hk2, size_succ, h3]
  · intro hk
    have h1 : min k (cbook_group_length cfg.sequences g) = cbook_group_length cfg.sequences g :=
      Nat.min_eq_right hk
    simp [ccfg_iterate, herr, h1]

/-- C2 at the demo context: `window.padding` has two values; the call after
one earlier call returns true and moves the position from 1 to 2. -/
theorem ccfg_iterate_count_witness :
    demo.err = 0 ∧ demo.sequences.fits ∧
    resolve demo.keys_sequences "window" "padding" = some 0 ∧
    1 < cbook_group_length demo.sequences 0 ∧
    (iterate_n 1 (ccfg_fetch demo "window" "padding")).it = 1 ∧
    ccfg_iterate (iterate_n 1 (ccfg_fetch demo "window" "padding")) =
      (true, { iterate_n 1 (ccfg_fetch demo "window" "padding") with it := 1 + 1 }) :=
  ⟨by decide, by decide, by decide, by decide,
   (ccfg_iterate_count demo "window" "padding" 0 (by decide) (by decide) (by decide) 1).2.1
     (by decide)⟩

/-- C3: on an error-free context, `ccfg_resource` right after `ccfg_fetch`
(no `ccfg_iterate` yet) returns the empty string, whether the fetch matched
(position 0, index wrapping to `SIZE_MAX`) or missed (cursor unpositioned);
and after a fetch matching a group of `n` values, for `1 ≤ k ≤ n`,
`ccfg_resource` after the `k`-th `ccfg_iterate` is the word stored at
position `k - 1` of that group. -/
theorem ccfg_resource_value (cfg : ccfg) (nspace property : String)
    (herr : cfg.err = 0) (hfit : cfg.sequences.fits) :
    ccfg_resource (ccfg_fetch cfg nspace property) = "" ∧
    ∀ g k, resolve cfg.keys_sequences nspace property = some g →
      1 ≤ k → k ≤ cbook_group_length cfg.sequences g →
      (cfg.sequences.groups.getD g [])[k - 1]? =
        some (ccfg_resource (iterate_n k (ccfg_fetch cfg nspace property))) := by
  constructor
  · cases hr : resolve cfg.keys_sequences nspace property with
    | none =>
      rw [ccfg_fetch_miss cfg nspace property herr hr]
      have h : cfg.sequences.groups.length ≤ SIZE_MAX := by
        have := hfit.1
        unfold SIZE_MAX
        omega
      simp only [ccfg_resource, cbook_word_in_group]
      rw [List.getD_eq_default _ _ h]
      simp
    | some g =>
      rw [ccfg_fetch_hit cfg nspace property g herr hr]
      have h : (cfg.sequences.groups.getD g []).length ≤ size_pred 0 := by
        have := getD_length_lt_of_fits hfit g
        have h0 : size_pred 0 = 2 ^ 64 - 1 := by decide
        omega
      simp only [ccfg_resource, cbook_word_in_group]
      rw [List.getD_eq_default _ _ h]
      simp
  · intro g k hg h1 hk
    have hlen := cbook_group_length_lt_of_fits hfit g
    rw [ccfg_fetch_hit cfg nspace property g herr hg, iterate_n_cursor cfg g herr hlen k]
    have hseq : cfg.sequences.err = 0 := by
      by_contra hne
      simp [cbook_group_length, hne] at hk
      omega
    have hmin : min k (cbook_group_length cfg.sequences g) = k := Nat.min_eq_left hk
    have hpred : size_pred k = k - 1 := by
      unfold size_pred SIZE_MAX
      omega
    have hlt : k - 1 < (cfg.sequences.groups.getD g []).length := by
      unfold cbook_group_length at hk
      rw [if_neg (by simp [hseq])] at hk
      omega
    simp only [ccfg_resource, cbook_word_in_group, hmin, hpred, herr, hseq]
    generalize cfg.sequences.groups.getD g [] = l at hlt
    rw [List.getElem?_eq_getElem hlt, List.getD_eq_getElem _ _ hlt]
    simp

/-- C3 at the demo context: after the second `ccfg_iterate` on
`window.padding`, `ccfg_resource` is the second value, "8". -/
theorem ccfg_resource_value_witness :
    demo.err = 0 ∧ demo.sequences.fits ∧
    resolve demo.keys_sequences "window" "padding" = some 0 ∧
    ccfg_resource (iterate_n 2 (ccfg_fetch demo "window" "padding")) = "8" ∧
    (demo.sequences.groups.getD 0 [])[2 - 1]? =
      some (ccfg_resource (iterate_n 2 (ccfg_fetch demo "window" "padding"))) :=
  ⟨by decide, by decide, by decide, by decide,
   (ccfg_resource_value demo "window" "padding" (by decide) (by decide)).2 0 2
     (by decide) (by decide) (by decide)⟩

/-- C4: on an error-free context, `ccfg_fetch` followed immediately by
`ccfg_resource_length` returns the number of words stored in the sequence
Ledger group that the sequence Lookup binds to the pair, and 0 when the pair
is not matched, the cursor being unpositioned. -/
theorem ccfg_fetch_resource_length (cfg : ccfg) (nspace property : String)
    (herr : cfg.err = 0) (hseq : cfg.sequences.err = 0) (hfit : cfg.sequences.fits) :
    (∀ g, resolve cfg.keys_sequences nspace property = some g →
      ccfg_resource_length (ccfg_fetch cfg nspace property) =
        (cfg.sequences.groups.getD g []).length) ∧
    (resolve cfg.keys_sequences nspace property = none →
      ccfg_resource_length (ccfg_fetch cfg nspace property) = 0 ∧
      (ccfg_fetch cfg nspace property).it_group = SIZE_MAX ∧
      (ccfg_fetch cfg nspace property).it = SIZE_MAX) := by
  constructor
  · intro g hg
    rw [ccfg_fetch_hit cfg nspace property g herr hg]
    simp [ccfg_resource_length, cbook_group_length, herr, hseq]
  · intro hr
    rw [ccfg_fetch_miss cfg nspace property herr hr]
    have h := cbook_group_length_SIZE_MAX hfit
    simp [ccfg_resource_length, herr, h]

/-- C4 at the demo context: `window.padding` is bound to group 0, which
stores two values. -/
theorem ccfg_fetch_resource_length_witness :
    demo.err = 0 ∧ demo.sequences.err = 0 ∧ demo.sequences.fits ∧
    resolve demo.keys_sequences "window" "padding" = some 0 ∧
    ccfg_resource_length (ccfg_fetch demo "window" "padding") = 2 :=
  ⟨by decide, by decide, by decide, by decide,
   (ccfg_fetch_resource_length demo "window" "padding" (by decide) (by decide) (by decide)).1 0
     (by decide)⟩

/-! ## Source selection -/

theorem lor_eq_zero {a b : Nat} (h : a ||| b = 0) : a = 0 ∧ b = 0 := by
  constructor
  · apply Nat.eq_of_testBit_eq
    intro i
    have := congrArg (fun n => Nat.testBit n i) h
    simp only [Nat.testBit_or, Nat.zero_testBit, Bool.or_eq_false_iff] at this
    simp [this.1]
  · apply Nat.eq_of_testBit_eq
    intro i
    have := congrArg (fun n => Nat.testBit n i) h
    simp only [Nat.testBit_or, Nat.zero_testBit, Bool.or_eq_false_iff] at this
    simp [this.2]

theorem flatten_append_to_last (str : String) (gs : List (List String)) :
    (append_to_last str gs).flatten = gs.flatten ++ [str] := by
  induction gs with
  | nil => simp [append_to_last]
  | cons g t ih =>
    cases t with
    | nil => simp [append_to_last]
    | cons h t => simp [append_to_last, ih]

theorem cbook_words_number_ok {book : cbook} (h : book.err = 0) :
    cbook_words_number book = book.groups.flatten.length := by
  unfold cbook_words_number
  rw [if_neg (by simp [h])]

theorem cbook_word_ok {book : cbook} (h : book.err = 0) (i : Nat) :
    cbook_word book i = book.groups.flatten.getD i "" := by
  unfold cbook_word
  rw [if_neg (by simp [h])]

/-- The loop stops at the first index at or after `i` whose word opens. -/
theorem _select_source_loop_found (fopen : String → Bool) (sources : cbook)
    (herr : sources.err = 0) (m : Nat) (hm : m < sources.groups.flatten.length)
    (hopen : fopen (sources.groups.flatten.getD m "") = true) :
    ∀ fuel i, i + fuel = sources.groups.flatten.length → i ≤ m →
      (∀ j, i ≤ j → j < m → fopen (sources.groups.flatten.getD j "") = false) →
      _select_source_loop fopen sources fuel i = (sources.groups.flatten.getD m "", some m) := by
  intro fuel
  induction fuel with
  | zero =>
    intro i hi him _
    omega
  | succ fuel ih =>
    intro i hi him hfirst
    have hlt : i < cbook_words_number sources := by
      rw [cbook_words_number_ok herr]
      omega
    simp only [_select_source_loop, hlt, if_true]
    have hw := cbook_word_ok herr i
    by_cases heq : i = m
    · subst heq
      rw [hw, hopen]
      rfl
    · have hclosed := hfirst i (Nat.le_refl i) (by omega)
      rw [hw, hclosed]
      simp only [Bool.false_eq_true, if_false]
      exact ih (i + 1) (by omega) (by omega) (fun j hj hjm => hfirst j (by omega) hjm)

/-- The loop returns the empty string, and writes no index, when no word at
or after `i` opens. -/
theorem _select_source_loop_none (fopen : String → Bool) (sources : cbook) :
    ∀ fuel i, (∀ j, i ≤ j → j < cbook_words_number sources →
        fopen (cbook_word sources j) = false) →
      _select_source_loop fopen sources fuel i = ("", none) := by
  intro fuel
  induction fuel with
  | zero =>
    intro i _
    rfl
  | succ fuel ih =>
    intro i hnone
    simp only [_select_source_loop]
    by_cases hlt : i < cbook_words_number sources
    · rw [if_pos hlt, hnone i (Nat.le_refl i) hlt]
      simp only [Bool.false_eq_true, if_false]
      exact ih (i + 1) (fun j hj hjn => hnone j (by omega) hjn)
    · rw [if_neg hlt]

theorem push_sources_of_err (cfg : ccfg) (herr : cfg.err ≠ 0) (pushes : List (String × Nat)) :
    push_sources cfg pushes = cfg := by
  induction pushes with
  | nil => rfl
  | cons push rest ih =>
    have h : ccfg_push_source cfg push.1 push.2 = cfg := by simp [ccfg_push_source, herr]
    simp only [push_sources, h, ih]

/-- When the context is still error-free after a sequence of pushes, every
push was stored: the sources are the earlier ones followed by the pushed
paths, in push order. -/
theorem push_sources_words (pushes : List (String × Nat)) :
    ∀ cfg : ccfg, cfg.err = 0 → cfg.sources.err = 0 → (push_sources cfg pushes).err = 0 →
      (push_sources cfg pushes).sources.err = 0 ∧
      (push_sources cfg pushes).sources.groups.flatten =
        cfg.sources.groups.flatten ++ pushes.map Prod.fst := by
  induction pushes with
  | nil =>
    intro cfg _ hs _
    simp [push_sources, hs]
  | cons push rest ih =>
    intro cfg herr hs hok
    simp only [push_sources] at hok ⊢
    by_cases hpush : (ccfg_push_source cfg push.1 push.2).err = 0
    · have hsrc : (ccfg_push_source cfg push.1 push.2).sources.err = 0 := by
        simp only [ccfg_push_source, herr, _update_err, cbook_error, cdict_error] at hpush ⊢
        simp only [ne_eq, not_true_eq_false, if_false] at hpush ⊢
        have h1 := (lor_eq_zero hpush).1
        have h2 := (lor_eq_zero h1).1
        exact (lor_eq_zero (lor_eq_zero h2).1).2
      have halloc : push.2 = 0 := by
        by_contra hne
        simp [ccfg_push_source, herr, _update_err, cbook_write, hs, hne] at hsrc
      have hwords : (ccfg_push_source cfg push.1 push.2).sources.groups.flatten =
          cfg.sources.groups.flatten ++ [push.1] := by
        simp [ccfg_push_source, herr, _update_err, cbook_write, hs, halloc,
          flatten_append_to_last]
      obtain ⟨h1, h2⟩ := ih _ hpush hsrc hok
      refine ⟨h1, ?_⟩
      rw [h2, hwords]
      simp
    · rw [push_sources_of_err _ hpush] at hok
      exact absurd hok hpush

theorem _select_source_first (fopen : String → Bool) (cfg : ccfg) (hs : cfg.sources.err = 0)
    (m : Nat) (hm : m < cfg.sources.groups.flatten.length)
    (hopen : fopen (cfg.sources.groups.flatten.getD m "") = true)
    (hfirst : ∀ j, j < m → fopen (cfg.sources.groups.flatten.getD j "") = false) :
    _select_source fopen cfg = (cfg.sources.groups.flatten.getD m "", some m) := by
  unfold _select_source
  rw [cbook_words_number_ok hs]
  exact _select_source_loop_found fopen cfg.sources hs m hm hopen _ 0 (by omega) (Nat.zero_le m)
    (fun j _ hj => hfirst j hj)

theorem _select_source_none (fopen : String → Bool) (cfg : ccfg)
    (hnone : ∀ p ∈ cfg.sources.groups.flatten, fopen p = false) :
    _select_source fopen cfg = ("", none) := by
  unfold _select_source
  apply _select_source_loop_none
  intro j _ hj
  by_cases hs : cfg.sources.err = 0
  · rw [cbook_words_number_ok hs] at hj
    rw [cbook_word_ok hs, List.getD_eq_getElem _ _ hj]
    exact hnone _ (List.getElem_mem _)
  · simp [cbook_words_number, hs] at hj

theorem _select_source_openable (fopen : String → Bool) (cfg : ccfg) (hs : cfg.sources.err = 0)
    (hempty : fopen "" = false) (h : (_select_source fopen cfg).1 = "") :
    ∀ p ∈ cfg.sources.groups.flatten, fopen p = false := by
  by_contra hex
  push_neg at hex
  obtain ⟨p, hp, hopen⟩ := hex
  obtain ⟨n, hn, hnp⟩ := List.mem_iff_getElem.mp hp
  have hex : ∃ m, m < cfg.sources.groups.flatten.length ∧
      fopen (cfg.sources.groups.flatten.getD m "") = true := by
    refine ⟨n, hn, ?_⟩
    rw [List.getD_eq_getElem _ _ hn, hnp]
    simpa using hopen
  have hspec := Nat.find_spec hex
  have hmin : ∀ j, j < Nat.find hex → fopen (cfg.sources.groups.flatten.getD j "") = false := by
    intro j hj
    have hnot := Nat.find_min hex hj
    have hjlt : j < cfg.sources.groups.flatten.length := by omega
    cases hv : fopen (cfg.sources.groups.flatten.getD j "") with
    | false => rfl
    | true => exact absurd ⟨hjlt, hv⟩ hnot
  rw [_select_source_first fopen cfg hs (Nat.find hex) hspec.1 hspec.2 hmin] at h
  simp only at h
  rw [h, hempty] at hspec
  exact absurd hspec.2 (by simp)

/-- C5: after any sequence of `ccfg_push_source` calls on a fresh error-free
context that leaves it error-free, and for any filesystem (a filesystem never
opens the empty path): source selection returns the first pushed path, in
push order, that opens for reading, and reports its push index; and it
returns "none" (the empty string from `_select_source`, false from
`ccfg_can_open_sources`) exactly when no pushed path opens, in particular
when no path was pushed. -/
theorem select_source_first_openable (fopen : String → Bool) (cfg : ccfg)
    (pushes : List (String × Nat))
    (herr : cfg.err = 0) (hs : cfg.sources.err = 0) (hfresh : cfg.sources.groups = [])
    (hempty : fopen "" = false) (hok : (push_sources cfg pushes).err = 0) :
    (∀ i, i < pushes.length → fopen ((pushes.map Prod.fst).getD i "") = true →
      (∀ j, j < i → fopen ((pushes.map Prod.fst).getD j "") = false) →
      _select_source fopen (push_sources cfg pushes) =
        ((pushes.map Prod.fst).getD i "", some i) ∧
      ccfg_can_open_sources fopen (push_sources cfg pushes) =
        ⟨true, some i, some ((pushes.map Prod.fst).getD i "")⟩) ∧
    ((∀ p ∈ pushes.map Prod.fst, fopen p = false) →
      _select_source fopen (push_sources cfg pushes) = ("", none) ∧
      ccfg_can_open_sources fopen (push_sources cfg pushes) = ⟨false, none, none⟩) ∧
    ((_select_source fopen (push_sources cfg pushes)).1 = "" →
      ∀ p ∈ pushes.map Prod.fst, fopen p = false) ∧
    ((ccfg_can_open_sources fopen (push_sources cfg pushes)).ret = false →
      ∀ p ∈ pushes.map Prod.fst, fopen p = false) := by
  obtain ⟨hse, hws⟩ := push_sources_words pushes cfg herr hs hok
  rw [hfresh, List.flatten_nil, List.nil_append] at hws
  refine ⟨?_, ?_, ?_, ?_⟩
  · intro i hi hopen hfirst
    have hsel : _select_source fopen (push_sources cfg pushes) =
        ((pushes.map Prod.fst).getD i "", some i) := by
      rw [← hws]
      apply _select_source_first fopen _ hse i
      · rw [hws]
        simpa using hi
      · rw [hws]
        exact hopen
      · rw [hws]
        exact hfirst
    refine ⟨hsel, ?_⟩
    have hne : (pushes.map Prod.fst).getD i "" ≠ "" := by
      intro heq
      rw [heq, hempty] at hopen
      exact absurd hopen (by simp)
    unfold ccfg_can_open_sources
    rw [if_neg (by simp [hok]), hsel, if_neg hne]
  · intro hnone
    have hsel : _select_source fopen (push_sources cfg pushes) = ("", none) :=
      _select_source_none fopen _ (by rw [hws]; exact hnone)
    refine ⟨hsel, ?_⟩
    unfold ccfg_can_open_sources
    rw [if_neg (by simp [hok]), hsel, if_pos rfl]
  · intro h
    rw [← hws]
    exact _select_source_openable fopen _ hse hempty h
  · intro h
    rw [← hws]
    apply _select_source_openable fopen _ hse hempty
    unfold ccfg_can_open_sources at h
    rw [if_neg (by simp [hok])] at h
    by_contra hne
    rw [if_neg hne] at h
    exact absurd h (by simp)

/-- C5 on the scenario of the specification: of the two pushed sources only
the second opens; it is selected and its push index 1 is reported. -/
theorem select_source_first_openable_witness :
    demo_fresh.err = 0 ∧ demo_fopen "" = false ∧
    (push_sources demo_fresh [("/missing/a.conf", 0), ("/etc/demo.conf", 0)]).err = 0 ∧
    _select_source demo_fopen
        (push_sources demo_fresh [("/missing/a.conf", 0), ("/etc/demo.conf", 0)]) =
      ("/etc/demo.conf", some 1) ∧
    ccfg_can_open_sources demo_fopen
        (push_sources demo_fresh [("/missing/a.conf", 0), ("/etc/demo.conf", 0)]) =
      ⟨true, some 1, some "/etc/demo.conf"⟩ :=
  ⟨by decide, by decide, by decide,
   (select_source_first_openable demo_fopen demo_fresh
      [("/missing/a.conf", 0), ("/etc/demo.conf", 0)]
      (by decide) (by decide) (by decide) (by decide) (by decide)).1 1
      (by decide) (by decide) (by decide)⟩

/-! ## Load -/

/-- C6: when no pushed source opens (in particular when the source list is
empty), `ccfg_load` returns the context unchanged, whatever the source reader
is: ledgers, lookups, cursor, parameters, sources and error state are the
same, so the error state does not become non-zero and every fetch gives the
same result as before the call. -/
theorem ccfg_load_no_source (fopen : String → Bool)
    (file_parse_root : ccfg → String → cbook × cdict) (cfg : ccfg)
    (hnone : ∀ i, i < cbook_words_number cfg.sources →
      fopen (cbook_word cfg.sources i) = false) :
    ccfg_load fopen file_parse_root cfg = cfg ∧
    (ccfg_load fopen file_parse_root cfg).err = cfg.err ∧
    ∀ nspace property,
      ccfg_fetch (ccfg_load fopen file_parse_root cfg) nspace property =
        ccfg_fetch cfg nspace property := by
  have h : ccfg_load fopen file_parse_root cfg = cfg := by
    unfold ccfg_load
    split
    · rfl
    · have hsel : _select_source fopen cfg = ("", none) :=
        _select_source_loop_none fopen cfg.sources _ 0 (fun j _ hj => hnone j hj)
      rw [hsel, if_pos rfl]
  rw [h]
  exact ⟨rfl, rfl, fun _ _ => rfl⟩

/-- C6 at the demo context, on a filesystem where nothing opens: the load
leaves the context as it is and `window.padding` still has its two values. -/
theorem ccfg_load_no_source_witness :
    (∀ i, i < cbook_words_number demo.sources → no_fopen (cbook_word demo.sources i) = false) ∧
    ccfg_load no_fopen demo_reader demo = demo ∧
    ccfg_resource_length (ccfg_fetch (ccfg_load no_fopen demo_reader demo) "window" "padding")
      = 2 :=
  ⟨by decide, (ccfg_load_no_source no_fopen demo_reader demo (by decide)).1, by decide⟩

/-! ## Parameters -/

theorem size_pred_of_pos (n : Nat) (h1 : 1 ≤ n) (h2 : n < 2 ^ 64) : size_pred n = n - 1 := by
  unfold size_pred SIZE_MAX
  omega

/-- A successful `ccfg_push_param_str` on an error-free context: the word is
stored at the end of the parameter Ledger, the name is bound to its position,
and the context stays error-free. -/
theorem ccfg_push_param_str_ok (cfg : ccfg) (name str : String) (hfree : cfg.error_free)
    (hsize : cfg.params.groups.flatten.length + 1 < 2 ^ 64) :
    (ccfg_push_param_str cfg name str 0 0).error_free ∧
    (ccfg_push_param_str cfg name str 0 0).params.groups.flatten =
      cfg.params.groups.flatten ++ [str] ∧
    (ccfg_push_param_str cfg name str 0 0).keys_params.slots.lookup (name, 0) =
      some cfg.params.groups.flatten.length := by
  obtain ⟨h0, h1, h2, h3, h4, h5, h6⟩ := hfree
  have hp : size_pred (cfg.params.groups.flatten.length + 1) = cfg.params.groups.flatten.length :=
    size_pred_of_pos _ (by omega) hsize
  have hbook : cbook_write cfg.params str cbook_group.CBOOK_OLD 0 =
      ⟨append_to_last str cfg.params.groups, 0⟩ := by
    unfold cbook_write
    rw [if_neg (by simp [h1]), if_neg (by simp)]
    simp [h1]
  have hw : cbook_words_number (cbook_write cfg.params str cbook_group.CBOOK_OLD 0) =
      cfg.params.groups.flatten.length + 1 := by
    rw [hbook, cbook_words_number_ok rfl, flatten_append_to_last]
    simp
  have hdict : ∀ v, cdict_write cfg.keys_params name 0 v 0 =
      ⟨((name, 0), v) :: cfg.keys_params.slots.filter (fun s => s.1 ≠ (name, 0)), 0⟩ := by
    intro v
    unfold cdict_write
    rw [if_neg (by simp [h4]), if_neg (by simp)]
    simp [h4]
  unfold ccfg_push_param_str
  rw [if_neg (by simp [h0])]
  simp only [hw, hp, hdict]
  rw [hbook]
  simp only [cbook_error, if_true]
  refine ⟨⟨?_, rfl, h2, h3, rfl, h5, h6⟩, ?_, ?_⟩
  · simp [_update_err, cbook_error, cdict_error, h0, h2, h3, h5, h6]
  · simp [_update_err, flatten_append_to_last]
  · simp [_update_err]

theorem getD_append_two (ws : List String) (A B : String) :
    (ws ++ [A] ++ [B]).getD (ws.length + 1) "" = B ∧ (ws ++ [A] ++ [B]).getD ws.length "" = A := by
  induction ws with
  | nil => exact ⟨rfl, rfl⟩
  | cons w ws ih => simpa using ih

/-- C7: on an error-free context, when no allocation fails, after
`ccfg_push_param_str(x, A)` then `ccfg_push_param_str(x, B)` the parameter
Lookup resolves `x` at the root scope to the last position of the parameter
Ledger (`words_number - 1`), which holds `B`, while `A` is still stored at the
position just before it. -/
theorem ccfg_push_param_str_shadow (cfg : ccfg) (x A B : String) (hfree : cfg.error_free)
    (hsize : cfg.params.groups.flatten.length + 2 < 2 ^ 64) :
    cbook_words_number (ccfg_push_param_str (ccfg_push_param_str cfg x A 0 0) x B 0 0).params =
      cfg.params.groups.flatten.length + 2 ∧
    cdict_find (ccfg_push_param_str (ccfg_push_param_str cfg x A 0 0) x B 0 0).keys_params x 0 =
      some (cfg.params.groups.flatten.length + 1) ∧
    cbook_word (ccfg_push_param_str (ccfg_push_param_str cfg x A 0 0) x B 0 0).params
      (cfg.params.groups.flatten.length + 1) = B ∧
    cbook_word (ccfg_push_param_str (ccfg_push_param_str cfg x A 0 0) x B 0 0).params
      cfg.params.groups.flatten.length = A := by
  obtain ⟨hfree1, hw1, _⟩ := ccfg_push_param_str_ok cfg x A hfree (by omega)
  have hlen1 : (ccfg_push_param_str cfg x A 0 0).params.groups.flatten.length =
      cfg.params.groups.flatten.length + 1 := by
    rw [hw1]
    simp
  obtain ⟨hfree2, hw2, hk2⟩ := ccfg_push_param_str_ok _ x B hfree1 (by omega)
  rw [hw1] at hw2
  rw [hlen1] at hk2
  have hperr := hfree2.2.1
  have hkerr := hfree2.2.2.2.2.1
  refine ⟨?_, ?_, ?_, ?_⟩
  · rw [cbook_words_number_ok hperr, hw2]
    simp
  · unfold cdict_find
    rw [if_neg (by simp [hkerr])]
    exact hk2
  · rw [cbook_word_ok hperr, hw2]
    exact (getD_append_two _ A B).1
  · rw [cbook_word_ok hperr, hw2]
    exact (getD_append_two _ A B).2
/-- C7 from a fresh context: after pushing `x = "1"` then `x = "2"`, `x`
resolves to position 1, which holds "2", and "1" is still at position 0. -/
theorem ccfg_push_param_str_shadow_witness :
    demo_fresh.error_free ∧
    cdict_find
      (ccfg_push_param_str (ccfg_push_param_str demo_fresh "x" "1" 0 0) "x" "2" 0 0).keys_params
      "x" 0 = some (demo_fresh.params.groups.flatten.length + 1) ∧
    cbook_word (ccfg_push_param_str (ccfg_push_param_str demo_fresh "x" "1" 0 0) "x" "2" 0 0).params
      1 = "2" ∧
    cbook_word (ccfg_push_param_str (ccfg_push_param_str demo_fresh "x" "1" 0 0) "x" "2" 0 0).params
      0 = "1" :=
  ⟨by decide,
   (ccfg_push_param_str_shadow demo_fresh "x" "1" "2" (by decide) (by decide)).2.1,
   by decide, by decide⟩

theorem snprintf_of_short (size : Nat) (text : String) (h : text.length ≤ size - 1) :
    snprintf size text = text := by
  unfold snprintf
  rw [List.take_of_length_le h]

theorem printf_lli_length (l : Int) (hlo : -2 ^ 63 ≤ l) (hhi : l < 2 ^ 63) :
    (printf_lli l).length ≤ 20 := by
  unfold printf_lli
  split
  · have h : (Nat.repr l.natAbs).length ≤ 19 :=
      Nat.repr_length _ 19 (by norm_num) (by omega)
    rw [String.length_append]
    have h1 : ("-" : String).length = 1 := rfl
    omega
  · have h : (Nat.repr l.toNat).length ≤ 19 :=
      Nat.repr_length _ 19 (by norm_num) (by omega)
    omega

/-- C8: for every context, name and signed 64-bit integer `l`,
`ccfg_push_param_long(name, l)` has the effect of `ccfg_push_param_str(name, s)`
with `s` the full decimal text of `l`: that text has at most 20 characters, so
the 64-byte buffer never truncates it. -/
theorem ccfg_push_param_long_eq (cfg : ccfg) (name : String) (l : Int)
    (alloc_book alloc_dict : Nat) (hlo : -2 ^ 63 ≤ l) (hhi : l < 2 ^ 63) :
    ccfg_push_param_long cfg name l alloc_book alloc_dict =
      ccfg_push_param_str cfg name (printf_lli l) alloc_book alloc_dict ∧
    (printf_lli l).length ≤ 20 ∧
    snprintf 64 (printf_lli l) = printf_lli l := by
  have hlen := printf_lli_length l hlo hhi
  have hs : snprintf 64 (printf_lli l) = printf_lli l := snprintf_of_short 64 _ (by omega)
  refine ⟨?_, hlen, hs⟩
  unfold ccfg_push_param_long
  rw [hs]

/-- C8 at the smallest `long long`, whose text has the maximal 20
characters. -/
theorem ccfg_push_param_long_eq_witness :
    (-2 ^ 63 : Int) ≤ -9223372036854775808 ∧ (-9223372036854775808 : Int) < 2 ^ 63 ∧
    printf_lli (-9223372036854775808) = "-9223372036854775808" ∧
    ccfg_push_param_long demo_fresh "x" (-9223372036854775808) 0 0 =
      ccfg_push_param_str demo_fresh "x" (printf_lli (-9223372036854775808)) 0 0 :=
  ⟨by decide, by decide, by decide,
   (ccfg_push_param_long_eq demo_fresh "x" (-9223372036854775808) 0 0
      (by decide) (by decide)).1⟩

/-! ## Error state -/

theorem testBit_lor_left {a b bit : Nat} (h : a.testBit bit = true) :
    (a ||| b).testBit bit = true := by
  rw [Nat.testBit_or, h]
  rfl

/-- After `_update_err` every bit of the earlier error state is still set. -/
theorem _update_err_monotonic (cfg : ccfg) (bit : Nat) (h : cfg.err.testBit bit = true) :
    (_update_err cfg).err.testBit bit = true := by
  unfold _update_err
  exact testBit_lor_left (testBit_lor_left (testBit_lor_left (testBit_lor_left
    (testBit_lor_left (testBit_lor_left h)))))

theorem ccfg_push_param_str_monotonic (cfg : ccfg) (name str : String)
    (alloc_book alloc_dict bit : Nat) (h : cfg.err.testBit bit = true) :
    (ccfg_push_param_str cfg name str alloc_book alloc_dict).err.testBit bit = true := by
  unfold ccfg_push_param_str
  split
  · exact h
  · dsimp only
    split
    · exact _update_err_monotonic _ bit h
    · exact _update_err_monotonic _ bit h

/-- C9: for every context and every call of `ccfg_push_source`,
`ccfg_push_param_str`, `ccfg_push_param_long`, `ccfg_push_param_double`,
`ccfg_clear_resources`, `ccfg_clear_params`, `ccfg_clear_sources`,
`ccfg_fetch`, `ccfg_iterate` or `ccfg_load`, whatever the allocations, the
filesystem and the source reader do, every error bit set before the call is
still set after it. -/
theorem ccfg_error_monotonic (fopen : String → Bool)
    (file_parse_root : ccfg → String → cbook × cdict) (printf_f : Float → String)
    (call : ccfg_call) (cfg : ccfg) (bit : Nat) (h : cfg.err.testBit bit = true) :
    (call.run fopen file_parse_root printf_f cfg).err.testBit bit = true := by
  cases call with
  | push_source filename alloc =>
    simp only [ccfg_call.run, ccfg_push_source]
    split
    · exact h
    · exact _update_err_monotonic _ bit h
  | push_param_str name str alloc_book alloc_dict =>
    exact ccfg_push_param_str_monotonic cfg name str alloc_book alloc_dict bit h
  | push_param_long name l alloc_book alloc_dict =>
    exact ccfg_push_param_str_monotonic cfg name _ alloc_book alloc_dict bit h
  | push_param_double name d alloc_book alloc_dict =>
    exact ccfg_push_param_str_monotonic cfg name _ alloc_book alloc_dict bit h
  | clear_resources =>
    simp only [ccfg_call.run, ccfg_clear_resources]
    split <;> exact h
  | clear_params =>
    simp only [ccfg_call.run, ccfg_clear_params]
    split <;> exact h
  | clear_sources =>
    simp only [ccfg_call.run, ccfg_clear_sources]
    split <;> exact h
  | fetch nspace property =>
    simp only [ccfg_call.run, ccfg_fetch]
    split
    · exact h
    · split
      · exact h
      · split <;> exact h
  | iterate =>
    simp only [ccfg_call.run, ccfg_iterate]
    split <;> exact h
  | load =>
    simp only [ccfg_call.run, ccfg_load]
    split
    · exact h
    · split
      · exact h
      · exact _update_err_monotonic _ bit h

/-- C9 at the demo context with error bit 2 set: after a
`ccfg_push_source` whose allocation raises another error, bit 2 is still
set. -/
theorem ccfg_error_monotonic_witness :
    demo_failed.err.testBit 2 = true ∧
    (ccfg_call.run demo_fopen demo_reader demo_printf_f
      (ccfg_call.push_source "/etc/cgui.conf" 2) demo_failed).err.testBit 2 = true :=
  ⟨by decide,
   ccfg_error_monotonic demo_fopen demo_reader demo_printf_f
     (ccfg_call.push_source "/etc/cgui.conf" 2) demo_failed 2 (by decide)⟩

/-- C10: on a context whose error state is non-zero, whatever its
collections and cursor hold, `ccfg_iterate` returns false, `ccfg_resource`
returns the empty string, `ccfg_resource_length` returns 0, and
`ccfg_can_open_sources` returns false without writing its index or filename
output. -/
theorem ccfg_error_queries (fopen : String → Bool) (cfg : ccfg) (herr : cfg.err ≠ 0) :
    (ccfg_iterate cfg).1 = false ∧
    ccfg_resource cfg = "" ∧
    ccfg_resource_length cfg = 0 ∧
    ccfg_can_open_sources fopen cfg = ⟨false, none, none⟩ := by
  refine ⟨?_, ?_, ?_, ?_⟩
  · unfold ccfg_iterate
    rw [if_pos (Or.inl herr)]
  · unfold ccfg_resource
    rw [if_pos herr]
  · unfold ccfg_resource_length
    rw [if_pos herr]
  · unfold ccfg_can_open_sources
    rw [if_pos herr]

/-- C10 at the demo context with an error bit set: the cursor sits inside a
populated group and a source opens, yet every query answers empty. -/
theorem ccfg_error_queries_witness :
    demo_failed.err ≠ 0 ∧
    (ccfg_iterate { demo_failed with it_group := 0, it := 1 }).1 = false ∧
    ccfg_resource { demo_failed with it_group := 0, it := 1 } = "" ∧
    ccfg_resource_length { demo_failed with it_group := 0, it := 1 } = 0 ∧
    ccfg_can_open_sources demo_fopen { demo_failed with it_group := 0, it := 1 } =
      ⟨false, none, none⟩ :=
  ⟨by decide,
   ccfg_error_queries demo_fopen { demo_failed with it_group := 0, it := 1 } (by decide)⟩

/-! ## Repair -/

theorem ne_zero_of_testBit {x bit : Nat} (h : x.testBit bit = true) : x ≠ 0 := by
  intro hx
  rw [hx, Nat.zero_testBit] at h
  exact absurd h (by simp)

/-- C11: on a context whose error state has no invalid-handle bit and whose
six collections each report no error after their own repair, `ccfg_repair`
leaves an error state of 0, keeps the content of every collection and the
cursor, and a following `ccfg_load` with a selectable source is performed: the
sequences are cleared, the source reader is run on the selected source and
the error state is recomputed, whereas before the repair a context in error
skipped the load. -/
theorem ccfg_repair_recovers (fopen : String → Bool)
    (file_parse_root : ccfg → String → cbook × cdict) (cfg : ccfg)
    (hinv : cfg.err &&& CERR_INVALID = 0)
    (h1 : cbook_error (cbook_repair cfg.params) = 0)
    (h2 : cbook_error (cbook_repair cfg.sequences) = 0)
    (h3 : cbook_error (cbook_repair cfg.sources) = 0)
    (h4 : cdict_error (cdict_repair cfg.keys_params) = 0)
    (h5 : cdict_error (cdict_repair cfg.keys_sequences) = 0)
    (h6 : cdict_error (cdict_repair cfg.tokens) = 0) :
    (ccfg_repair cfg).err = 0 ∧
    ((ccfg_repair cfg).params.groups = cfg.params.groups ∧
      (ccfg_repair cfg).sequences.groups = cfg.sequences.groups ∧
      (ccfg_repair cfg).sources.groups = cfg.sources.groups ∧
      (ccfg_repair cfg).keys_params.slots = cfg.keys_params.slots ∧
      (ccfg_repair cfg).keys_sequences.slots = cfg.keys_sequences.slots ∧
      (ccfg_repair cfg).tokens.slots = cfg.tokens.slots) ∧
    ((ccfg_repair cfg).it_group = cfg.it_group ∧ (ccfg_repair cfg).it = cfg.it) ∧
    ((_select_source fopen (ccfg_repair cfg)).1 ≠ "" →
      ccfg_load fopen file_parse_root (ccfg_repair cfg) =
        _update_err
          { ccfg_repair cfg with
            sequences :=
              (file_parse_root
                { ccfg_repair cfg with
                  sequences := cbook_clear (ccfg_repair cfg).sequences
                  keys_sequences := cdict_clear (ccfg_repair cfg).keys_sequences }
                (_select_source fopen (ccfg_repair cfg)).1).1
            keys_sequences :=
              (file_parse_root
                { ccfg_repair cfg with
                  sequences := cbook_clear (ccfg_repair cfg).sequences
                  keys_sequences := cdict_clear (ccfg_repair cfg).keys_sequences }
                (_select_source fopen (ccfg_repair cfg)).1).2 }) ∧
    (cfg.err ≠ 0 → ccfg_load fopen file_parse_root cfg = cfg) := by
  have herr : (ccfg_repair cfg).err = 0 := by
    simp only [cbook_error, cdict_error] at h1 h2 h3 h4 h5 h6
    simp only [ccfg_repair, _update_err, cbook_error, cdict_error, hinv, h1, h2, h3, h4, h5, h6]
    rfl
  refine ⟨herr, ⟨rfl, rfl, rfl, rfl, rfl, rfl⟩, ⟨rfl, rfl⟩, ?_, ?_⟩
  · intro hsel
    unfold ccfg_load
    rw [if_neg (by simp [herr]), if_neg hsel]
  · intro hne
    unfold ccfg_load
    rw [if_pos hne]

/-- C11 at the demo context after an allocation failure in the parameter
Ledger: the repair clears the error, and the load that follows on a
filesystem where `/etc/demo.conf` opens is performed. -/
theorem ccfg_repair_recovers_witness :
    demo_alloc_failed.err &&& CERR_INVALID = 0 ∧
    demo_alloc_failed.err ≠ 0 ∧
    (_select_source demo_fopen (ccfg_repair demo_alloc_failed)).1 ≠ "" ∧
    (ccfg_repair demo_alloc_failed).err = 0 :=
  ⟨by decide, by decide, by decide,
   (ccfg_repair_recovers demo_fopen demo_reader demo_alloc_failed (by decide) (by decide)
      (by decide) (by decide) (by decide) (by decide) (by decide)).1⟩

/-! ## Operations on a context in error -/

theorem ccfg_push_source_of_err (cfg : ccfg) (filename : String) (alloc : Nat)
    (herr : cfg.err ≠ 0) : ccfg_push_source cfg filename alloc = cfg := by
  unfold ccfg_push_source
  rw [if_pos herr]

theorem ccfg_push_param_str_of_err (cfg : ccfg) (name str : String) (alloc_book alloc_dict : Nat)
    (herr : cfg.err ≠ 0) : ccfg_push_param_str cfg name str alloc_book alloc_dict = cfg := by
  unfold ccfg_push_param_str
  rw [if_pos herr]

theorem ccfg_clear_resources_of_err (cfg : ccfg) (herr : cfg.err ≠ 0) :
    ccfg_clear_resources cfg = cfg := by
  unfold ccfg_clear_resources
  rw [if_pos herr]

theorem ccfg_clear_params_of_err (cfg : ccfg) (herr : cfg.err ≠ 0) :
    ccfg_clear_params cfg = cfg := by
  unfold ccfg_clear_params
  rw [if_pos herr]

theorem ccfg_clear_sources_of_err (cfg : ccfg) (herr : cfg.err ≠ 0) :
    ccfg_clear_sources cfg = cfg := by
  unfold ccfg_clear_sources
  rw [if_pos herr]

theorem ccfg_fetch_of_err (cfg : ccfg) (nspace property : String) (herr : cfg.err ≠ 0) :
    ccfg_fetch cfg nspace property = cfg := by
  unfold ccfg_fetch
  rw [if_pos herr]

theorem ccfg_iterate_of_err (cfg : ccfg) (herr : cfg.err ≠ 0) :
    ccfg_iterate cfg = (false, cfg) := by
  unfold ccfg_iterate
  rw [if_pos (Or.inl herr)]

theorem ccfg_load_of_err (fopen : String → Bool)
    (file_parse_root : ccfg → String → cbook × cdict) (cfg : ccfg) (herr : cfg.err ≠ 0) :
    ccfg_load fopen file_parse_root cfg = cfg := by
  unfold ccfg_load
  rw [if_pos herr]

/-- A call other than `ccfg_repair` keeps every bit of the error state. -/
theorem ccfg_call_run_testBit (fopen : String → Bool)
    (file_parse_root : ccfg → String → cbook × cdict) (printf_f : Float → String)
    (call : ccfg_call) (cfg : ccfg) (bit : Nat) (h : cfg.err.testBit bit = true) :
    (call.run fopen file_parse_root printf_f cfg).err.testBit bit = true := by
  have herr : cfg.err ≠ 0 := ne_zero_of_testBit h
  cases call with
  | push_source filename alloc =>
    simp only [ccfg_call.run, ccfg_push_source_of_err cfg filename alloc herr, h]
  | push_param_str name str alloc_book alloc_dict =>
    simp only [ccfg_call.run, ccfg_push_param_str_of_err cfg name str alloc_book alloc_dict herr, h]
  | push_param_long name l alloc_book alloc_dict =>
    simp only [ccfg_call.run, ccfg_push_param_long,
      ccfg_push_param_str_of_err cfg name _ alloc_book alloc_dict herr, h]
  | push_param_double name d alloc_book alloc_dict =>
    simp only [ccfg_call.run, ccfg_push_param_double,
      ccfg_push_param_str_of_err cfg name _ alloc_book alloc_dict herr, h]
  | clear_resources => simp only [ccfg_call.run, ccfg_clear_resources_of_err cfg herr, h]
  | clear_params => simp only [ccfg_call.run, ccfg_clear_params_of_err cfg herr, h]
  | clear_sources => simp only [ccfg_call.run, ccfg_clear_sources_of_err cfg herr, h]
  | fetch nspace property =>
    simp only [ccfg_call.run, ccfg_fetch_of_err cfg nspace property herr, h]
  | iterate => simp only [ccfg_call.run, ccfg_iterate_of_err cfg herr, h]
  | load => simp only [ccfg_call.run, ccfg_load_of_err fopen file_parse_root cfg herr, h]

/-- After `ccfg_repair` every invalid-handle bit of the error state is still
set. -/
theorem ccfg_repair_testBit (cfg : ccfg) (bit : Nat) (h : cfg.err.testBit bit = true)
    (hinv : CERR_INVALID.testBit bit = true) : (ccfg_repair cfg).err.testBit bit = true := by
  have hand : (cfg.err &&& CERR_INVALID).testBit bit = true := by
    rw [Nat.testBit_and, h, hinv]
    rfl
  unfold ccfg_repair _update_err
  exact testBit_lor_left (testBit_lor_left (testBit_lor_left (testBit_lor_left
    (testBit_lor_left (testBit_lor_left hand)))))

theorem run_ops_testBit (fopen : String → Bool)
    (file_parse_root : ccfg → String → cbook × cdict) (printf_f : Float → String)
    (bit : Nat) (hinv : CERR_INVALID.testBit bit = true) (ops : List ccfg_op) :
    ∀ cfg : ccfg, cfg.err.testBit bit = true →
      (run_ops fopen file_parse_root printf_f ops cfg).err.testBit bit = true := by
  induction ops with
  | nil =>
    intro cfg h
    exact h
  | cons op rest ih =>
    intro cfg h
    simp only [run_ops]
    apply ih
    cases op with
    | call c => exact ccfg_call_run_testBit fopen file_parse_root printf_f c cfg bit h
    | repair => exact ccfg_repair_testBit cfg bit h hinv

/-- C12: a context whose error state contains the invalid-handle bit keeps
it through every finite sequence of operations, `ccfg_repair` included, so
its error state is never 0; and the error state of the sentinel
`ccfg_placeholder_instance` is `CERR_INVALID`, which contains that bit. -/
theorem ccfg_invalid_forever (fopen : String → Bool)
    (file_parse_root : ccfg → String → cbook × cdict) (printf_f : Float → String)
    (ops : List ccfg_op) (cfg : ccfg) (h : cfg.err &&& CERR_INVALID ≠ 0) :
    (run_ops fopen file_parse_root printf_f ops cfg).err &&& CERR_INVALID ≠ 0 ∧
    (run_ops fopen file_parse_root printf_f ops cfg).err ≠ 0 ∧
    ccfg_placeholder_instance.err = CERR_INVALID ∧
    ccfg_placeholder_instance.err &&& CERR_INVALID ≠ 0 := by
  obtain ⟨bit, hbit⟩ := Nat.ne_zero_implies_bit_true h
  rw [Nat.testBit_and, Bool.and_eq_true] at hbit
  have hrun := run_ops_testBit fopen file_parse_root printf_f bit hbit.2 ops cfg hbit.1
  have hand : ((run_ops fopen file_parse_root printf_f ops cfg).err &&& CERR_INVALID).testBit bit
      = true := by
    rw [Nat.testBit_and, hrun, hbit.2]
    rfl
  exact ⟨ne_zero_of_testBit hand, ne_zero_of_testBit hrun, rfl, by decide⟩

/-- C12 on the sentinel: after a repair, a load on a filesystem where a
source opens, a push and another repair, it is still in error. -/
theorem ccfg_invalid_forever_witness :
    ccfg_placeholder_instance.err &&& CERR_INVALID ≠ 0 ∧
    (run_ops demo_fopen demo_reader demo_printf_f
      [ccfg_op.repair, ccfg_op.call ccfg_call.load,
        ccfg_op.call (ccfg_call.push_source "/etc/demo.conf" 0), ccfg_op.repair]
      ccfg_placeholder_instance).err ≠ 0 :=
  ⟨by decide,
   (ccfg_invalid_forever demo_fopen demo_reader demo_printf_f
      [ccfg_op.repair, ccfg_op.call ccfg_call.load,
        ccfg_op.call (ccfg_call.push_source "/etc/demo.conf" 0), ccfg_op.repair]
      ccfg_placeholder_instance (by decide)).2.1⟩

/-! ## Construction and cloning -/

theorem lor_eq_zero_iff {a b : Nat} : a ||| b = 0 ↔ a = 0 ∧ b = 0 := by
  constructor
  · exact lor_eq_zero
  · rintro ⟨ha, hb⟩
    rw [ha, hb]
    rfl

/-- The error state recomputed by `_update_err` is 0 exactly when the
earlier error state and the error flag of each collection are 0. -/
theorem _update_err_eq_zero_iff (cfg : ccfg) : (_update_err cfg).err = 0 ↔ cfg.error_free := by
  unfold _update_err ccfg.error_free cbook_error cdict_error
  simp only [lor_eq_zero_iff, and_assoc]

theorem _update_err_of_error_free (cfg : ccfg) (h : cfg.error_free) : _update_err cfg = cfg := by
  obtain ⟨h0, h1, h2, h3, h4, h5, h6⟩ := h
  unfold _update_err cbook_error cdict_error
  rw [h0, h1, h2, h3, h4, h5, h6]
  cases cfg
  simp_all

/-- C14: `ccfg_create` and `ccfg_clone` each return either the sentinel or a
context whose error state is 0, all of whose collections are error-free; the
sentinel is returned exactly when the allocation of the context fails or one
of the six created, respectively copied, collections reports an error. -/
theorem ccfg_create_clone_whole (cfg : ccfg) (malloc_ok : Bool)
    (alloc_params alloc_sequences alloc_sources alloc_keys_params alloc_keys_sequences
      alloc_tokens : Nat) (token_dict : cdict) :
    ((ccfg_create malloc_ok alloc_params alloc_sequences alloc_sources alloc_keys_params
          alloc_keys_sequences token_dict = none ∨
        ∃ c, ccfg_create malloc_ok alloc_params alloc_sequences alloc_sources alloc_keys_params
          alloc_keys_sequences token_dict = some c ∧ c.err = 0 ∧ c.error_free) ∧
      (ccfg_create malloc_ok alloc_params alloc_sequences alloc_sources alloc_keys_params
          alloc_keys_sequences token_dict = none ↔
        (malloc_ok = false ∨ cbook_error (cbook_create alloc_params) ≠ 0 ∨
          cbook_error (cbook_create alloc_sequences) ≠ 0 ∨
          cbook_error (cbook_create alloc_sources) ≠ 0 ∨
          cdict_error (cdict_create alloc_keys_params) ≠ 0 ∨
          cdict_error (cdict_create alloc_keys_sequences) ≠ 0 ∨
          cdict_error token_dict ≠ 0))) ∧
    ((ccfg_clone cfg malloc_ok alloc_params alloc_sequences alloc_sources alloc_keys_params
          alloc_keys_sequences alloc_tokens = none ∨
        ∃ c, ccfg_clone cfg malloc_ok alloc_params alloc_sequences alloc_sources
          alloc_keys_params alloc_keys_sequences alloc_tokens = some c ∧
          c.err = 0 ∧ c.error_free) ∧
      (ccfg_clone cfg malloc_ok alloc_params alloc_sequences alloc_sources alloc_keys_params
          alloc_keys_sequences alloc_tokens = none ↔
        (malloc_ok = false ∨ cbook_error (cbook_clone cfg.params alloc_params) ≠ 0 ∨
          cbook_error (cbook_clone cfg.sequences alloc_sequences) ≠ 0 ∨
          cbook_error (cbook_clone cfg.sources alloc_sources) ≠ 0 ∨
          cdict_error (cdict_clone cfg.keys_params alloc_keys_params) ≠ 0 ∨
          cdict_error (cdict_clone cfg.keys_sequences alloc_keys_sequences) ≠ 0 ∨
          cdict_error (cdict_clone cfg.tokens alloc_tokens) ≠ 0))) := by
  constructor
  · unfold ccfg_create
    cases malloc_ok with
    | false => simp
    | true =>
      simp only [Bool.true_eq_false, if_false, false_or]
      split
      · rename_i hne
        refine ⟨Or.inl rfl, ?_⟩
        simp only [true_iff]
        rw [ne_eq, _update_err_eq_zero_iff] at hne
        simp only [ccfg.error_free, CERR_NONE, true_and, cbook_error, cdict_error] at hne ⊢
        tauto
      · rename_i hz
        rw [ne_eq, not_not] at hz
        have hfree := (_update_err_eq_zero_iff _).mp hz
        rw [_update_err_of_error_free _ hfree]
        refine ⟨Or.inr ⟨_, rfl, hfree.1, hfree⟩, ?_⟩
        simp only [false_iff, reduceCtorEq]
        simp only [ccfg.error_free, cbook_error, cdict_error] at hfree ⊢
        tauto
  · unfold ccfg_clone
    cases malloc_ok with
    | false => simp
    | true =>
      simp only [Bool.true_eq_false, if_false, false_or]
      split
      · rename_i hne
        refine ⟨Or.inl rfl, ?_⟩
        simp only [true_iff]
        rw [ne_eq, _update_err_eq_zero_iff] at hne
        simp only [ccfg.error_free, CERR_NONE, true_and, cbook_error, cdict_error] at hne ⊢
        tauto
      · rename_i hz
        rw [ne_eq, not_not] at hz
        have hfree := (_update_err_eq_zero_iff _).mp hz
        rw [_update_err_of_error_free _ hfree]
        refine ⟨Or.inr ⟨_, rfl, hfree.1, hfree⟩, ?_⟩
        simp only [false_iff, reduceCtorEq]
        simp only [ccfg.error_free, cbook_error, cdict_error] at hfree ⊢
        tauto

/-! ## Clone -/

theorem cbook_clone_clean (book : cbook) (alloc : Nat) (h : (cbook_clone book alloc).err = 0) :
    cbook_clone book alloc = book := by
  have h2 := lor_eq_zero h
  unfold cbook_clone
  rw [h2.2]
  cases book
  simp

theorem cdict_clone_clean (dict : cdict) (alloc : Nat) (h : (cdict_clone dict alloc).err = 0) :
    cdict_clone dict alloc = dict := by
  have h2 := lor_eq_zero h
  unfold cdict_clone
  rw [h2.2]
  cases dict
  simp

/-- A clone that is not the sentinel is equal to the context it was made
from, when that context has no error. -/
theorem ccfg_clone_some (cfg c : ccfg) (malloc_ok : Bool)
    (alloc_params alloc_sequences alloc_sources alloc_keys_params alloc_keys_sequences
      alloc_tokens : Nat) (herr : cfg.err = 0)
    (h : ccfg_clone cfg malloc_ok alloc_params alloc_sequences alloc_sources alloc_keys_params
      alloc_keys_sequences alloc_tokens = some c) : c = cfg := by
  unfold ccfg_clone at h
  split at h
  · exact absurd h (by simp)
  · split at h
    · exact absurd h (by simp)
    · rename_i hz
      rw [ne_eq, not_not] at hz
      have hfree := (_update_err_eq_zero_iff _).mp hz
      rw [_update_err_of_error_free _ hfree] at h
      obtain ⟨_, h1, h2, h3, h4, h5, h6⟩ := hfree
      simp only at h1 h2 h3 h4 h5 h6
      rw [cbook_clone_clean _ _ h1, cbook_clone_clean _ _ h2, cbook_clone_clean _ _ h3,
        cdict_clone_clean _ _ h4, cdict_clone_clean _ _ h5, cdict_clone_clean _ _ h6] at h
      rw [← Option.some.inj h]
      cases cfg
      simp only [CERR_NONE] at herr ⊢
      simp [herr]

theorem getD_set_ne {α : Type} (l : List α) (i j : Nat) (a d : α) (h : i ≠ j) :
    (l.set i a).getD j d = l.getD j d := by
  rw [List.getD_eq_getElem?_getD, List.getD_eq_getElem?_getD, List.getElem?_set_ne h]

theorem getD_append_three {α : Type} (l : List α) (a b c d : α) :
    (l ++ [a, b, c]).getD l.length d = a ∧ (l ++ [a, b, c]).getD (l.length + 1) d = b ∧
      (l ++ [a, b, c]).getD (l.length + 2) d = c := by
  refine ⟨?_, ?_, ?_⟩
  · rw [List.getD_append_right _ _ _ _ (Nat.le_refl _)]
    simp
  · rw [List.getD_append_right _ _ _ _ (by omega)]
    simp
  · rw [List.getD_append_right _ _ _ _ (by omega)]
    simp

/-- A context read back from the structure `memory.alloc` returns is the
context that was allocated. -/
theorem memory_read_alloc (m : memory) (c : ccfg) : (m.alloc c).1.read (m.alloc c).2 = c := by
  obtain ⟨b1, b2, b3⟩ := getD_append_three m.books c.params c.sequences c.sources
    CBOOK_PLACEHOLDER
  obtain ⟨d1, d2, d3⟩ := getD_append_three m.dicts c.keys_params c.keys_sequences c.tokens
    CDICT_PLACEHOLDER
  simp only [memory.read, memory.alloc, b1, b2, b3, d1, d2, d3]

/-- An allocation leaves the contexts already in memory as they are. -/
theorem memory_read_alloc_old (m : memory) (c : ccfg) (p : ccfg_ptr) (hp : p.allocated m) :
    (m.alloc c).1.read p = m.read p := by
  obtain ⟨h1, h2, h3, h4, h5, h6⟩ := hp
  simp only [memory.read, memory.alloc, List.getD_append _ _ _ _ h1, List.getD_append _ _ _ _ h2,
    List.getD_append _ _ _ _ h3, List.getD_append _ _ _ _ h4, List.getD_append _ _ _ _ h5,
    List.getD_append _ _ _ _ h6]

/-- Storing a context through the pointers of a structure leaves a context
whose collections are other objects as it is. -/
theorem memory_read_write_above (m : memory) (x : ccfg) (p q : ccfg_ptr) (nb nd : Nat)
    (hp : p.below nb nd) (hq : q.above nb nd) : (m.write p x).1.read q = m.read q := by
  obtain ⟨h1, h2, h3, h4, h5, h6⟩ := hp
  obtain ⟨g1, g2, g3, g4, g5, g6⟩ := hq
  simp only [memory.read, memory.write]
  rw [getD_set_ne _ _ _ _ _ (by omega), getD_set_ne _ _ _ _ _ (by omega),
    getD_set_ne _ _ _ _ _ (by omega), getD_set_ne _ _ _ _ _ (by omega),
    getD_set_ne _ _ _ _ _ (by omega), getD_set_ne _ _ _ _ _ (by omega),
    getD_set_ne _ _ _ _ _ (by omega), getD_set_ne _ _ _ _ _ (by omega),
    getD_set_ne _ _ _ _ _ (by omega), getD_set_ne _ _ _ _ _ (by omega),
    getD_set_ne _ _ _ _ _ (by omega), getD_set_ne _ _ _ _ _ (by omega),
    getD_set_ne _ _ _ _ _ (by omega), getD_set_ne _ _ _ _ _ (by omega),
    getD_set_ne _ _ _ _ _ (by omega), getD_set_ne _ _ _ _ _ (by omega),
    getD_set_ne _ _ _ _ _ (by omega), getD_set_ne _ _ _ _ _ (by omega)]

theorem run_ops_at_read_above (fopen : String → Bool)
    (file_parse_root : ccfg → String → cbook × cdict) (printf_f : Float → String)
    (q : ccfg_ptr) (nb nd : Nat) (hq : q.above nb nd) (ops : List ccfg_op) :
    ∀ (m : memory) (p : ccfg_ptr), p.below nb nd →
      (run_ops_at fopen file_parse_root printf_f ops m p).1.read q = m.read q := by
  induction ops with
  | nil =>
    intro m p _
    rfl
  | cons op rest ih =>
    intro m p hp
    simp only [run_ops_at]
    have hp2 : (op.run_at fopen file_parse_root printf_f m p).2.below nb nd := hp
    rw [ih _ _ hp2]
    exact memory_read_write_above m _ p q nb nd hp hq

/-- C13: when `ccfg_clone` of an error-free context in memory does not return
the sentinel (the allocation succeeded and the six collections copied
cleanly), the clone has the cursor of the original and equal copies of its
six collections, so `ccfg_resource_length`, `ccfg_resource` and every further
`ccfg_iterate` agree with the original's; the original is left as it was; and
after any sequence of operations on the original (clears, pushes, fetches,
iterations, loads, repairs) the clone denotes the same context, so every
query on it gives the same result. -/
theorem ccfg_clone_independent (fopen : String → Bool)
    (file_parse_root : ccfg → String → cbook × cdict) (printf_f : Float → String)
    (m m1 : memory) (p q : ccfg_ptr) (malloc_ok : Bool)
    (alloc_params alloc_sequences alloc_sources alloc_keys_params alloc_keys_sequences
      alloc_tokens : Nat)
    (hp : p.allocated m) (herr : (m.read p).err = 0)
    (hclone : ccfg_clone_at m p malloc_ok alloc_params alloc_sequences alloc_sources
      alloc_keys_params alloc_keys_sequences alloc_tokens = (m1, some q)) :
    m1.read q = m.read p ∧
    (ccfg_resource_length (m1.read q) = ccfg_resource_length (m.read p) ∧
      ccfg_resource (m1.read q) = ccfg_resource (m.read p) ∧
      ∀ k, ccfg_iterate (iterate_n k (m1.read q)) = ccfg_iterate (iterate_n k (m.read p))) ∧
    m1.read p = m.read p ∧
    ∀ ops : List ccfg_op,
      (run_ops_at fopen file_parse_root printf_f ops m1 p).1.read q = m1.read q ∧
      ccfg_resource_length ((run_ops_at fopen file_parse_root printf_f ops m1 p).1.read q) =
        ccfg_resource_length (m.read p) ∧
      ccfg_resource ((run_ops_at fopen file_parse_root printf_f ops m1 p).1.read q) =
        ccfg_resource (m.read p) ∧
      ∀ k, ccfg_iterate
          (iterate_n k ((run_ops_at fopen file_parse_root printf_f ops m1 p).1.read q)) =
        ccfg_iterate (iterate_n k (m.read p)) := by
  unfold ccfg_clone_at at hclone
  cases hc : ccfg_clone (m.read p) malloc_ok alloc_params alloc_sequences alloc_sources
      alloc_keys_params alloc_keys_sequences alloc_tokens with
  | none =>
    rw [hc] at hclone
    simp at hclone
  | some c =>
    rw [hc] at hclone
    have hceq : c = m.read p := ccfg_clone_some _ _ _ _ _ _ _ _ _ herr hc
    simp only [Prod.mk.injEq, Option.some.injEq] at hclone
    obtain ⟨hm1, hq⟩ := hclone
    have hread : m1.read q = m.read p := by
      rw [← hm1, ← hq, memory_read_alloc, hceq]
    have hold : m1.read p = m.read p := by
      rw [← hm1]
      exact memory_read_alloc_old m c p hp
    have hbelow : p.below m.books.length m.dicts.length := hp
    have habove : q.above m.books.length m.dicts.length := by
      rw [← hq]
      simp only [ccfg_ptr.above, memory.alloc]
      omega
    refine ⟨hread, ?_, hold, ?_⟩
    · rw [hread]
      exact ⟨rfl, rfl, fun _ => rfl⟩
    · intro ops
      have hind := run_ops_at_read_above fopen file_parse_root printf_f q _ _ habove ops m1 p
        hbelow
      rw [hind, hread]
      exact ⟨rfl, rfl, rfl, fun _ => rfl⟩

/-- C13 on the demo context in memory, its cursor on the first value of
`window.padding`: after the original is cleared it yields nothing, and the
clone still yields that value. -/
theorem ccfg_clone_independent_witness :
    demo_ptr.allocated demo_memory ∧ (demo_memory.read demo_ptr).err = 0 ∧
    ccfg_clone_at demo_memory demo_ptr true 0 0 0 0 0 0 =
      (demo_clone_memory, some demo_clone_ptr) ∧
    ccfg_resource (demo_memory.read demo_ptr) = "4" ∧
    ccfg_resource
      ((run_ops_at no_fopen demo_reader demo_printf_f [ccfg_op.call ccfg_call.clear_resources]
        demo_clone_memory demo_ptr).1.read demo_ptr) = "" ∧
    ccfg_resource
      ((run_ops_at no_fopen demo_reader demo_printf_f [ccfg_op.call ccfg_call.clear_resources]
        demo_clone_memory demo_ptr).1.read demo_clone_ptr) =
      ccfg_resource (demo_memory.read demo_ptr) :=
  ⟨by decide, by decide, by decide, by decide, by decide,
   ((ccfg_clone_independent no_fopen demo_reader demo_printf_f demo_memory demo_clone_memory
      demo_ptr demo_clone_ptr true 0 0 0 0 0 0 (by decide) (by decide) (by decide)).2.2.2
        [ccfg_op.call ccfg_call.clear_resources]).2.2.1⟩

/-! ## Typed resource bindings -/

/-- The `switch` of `_fetch` writes no destination but the target of the
descriptor. -/
theorem _fetch_switch_other {Color : Type} (env : fetch_env Color) (_words : cdict) (ref : Nat)
    (_config : Nat → target_value Color) (resource : _resource_t) (str : String) (t : Nat)
    (ht : t ≠ resource.target) :
    _fetch_switch env _words ref _config resource str t = _config t := by
  obtain ⟨nspace, name, type, target⟩ := resource
  cases type <;> exact Function.update_noteq ht _ _

/-- The first `ccfg_iterate` after a `ccfg_fetch` returns false when the
engine is in error, when the pair is unmatched and when the matched group is
empty. -/
theorem ccfg_iterate_fetch_no_value (cfg : ccfg) (nspace property : String)
    (hfit : cfg.sequences.fits)
    (h : cfg.err ≠ 0 ∨ resolve cfg.keys_sequences nspace property = none ∨
      ∃ g, resolve cfg.keys_sequences nspace property = some g ∧
        cbook_group_length cfg.sequences g = 0) :
    (ccfg_iterate (ccfg_fetch cfg nspace property)).1 = false := by
  by_cases herr : cfg.err = 0
  · rcases h with h | h | ⟨g, hg, hlen⟩
    · exact absurd herr h
    · rw [ccfg_fetch_miss cfg nspace property herr h]
      unfold ccfg_iterate
      rw [if_pos]
      right
      simp only [cbook_group_length_SIZE_MAX hfit]
      exact Nat.zero_le _
    · rw [ccfg_fetch_hit cfg nspace property g herr hg]
      unfold ccfg_iterate
      rw [if_pos]
      right
      simp only [hlen]
      exact Nat.le_refl 0
  · rw [ccfg_fetch_of_err cfg nspace property herr, ccfg_iterate_of_err cfg herr]

/-- The first `ccfg_iterate` after a `ccfg_fetch` that matches a group with
at least one value returns true, and `ccfg_resource` is then the first word
of the group. -/
theorem ccfg_iterate_fetch_value (cfg : ccfg) (nspace property : String) (g : Nat)
    (herr : cfg.err = 0) (hg : resolve cfg.keys_sequences nspace property = some g)
    (hlen : 0 < cbook_group_length cfg.sequences g) :
    (ccfg_iterate (ccfg_fetch cfg nspace property)).1 = true ∧
    ccfg_resource (ccfg_iterate (ccfg_fetch cfg nspace property)).2 =
      (cfg.sequences.groups.getD g []).getD 0 "" := by
  have hseq : cfg.sequences.err = 0 := by
    by_contra hne
    unfold cbook_group_length at hlen
    rw [if_pos hne] at hlen
    exact absurd hlen (Nat.lt_irrefl 0)
  have hnot : ¬ (cfg.err ≠ 0 ∨ 0 ≥ cbook_group_length cfg.sequences g) := by
    intro h
    rcases h with h | h
    · exact h herr
    · omega
  rw [ccfg_fetch_hit cfg nspace property g herr hg]
  unfold ccfg_iterate
  rw [if_neg hnot]
  refine ⟨rfl, ?_⟩
  have h1 : size_pred (size_succ 0) = 0 := by decide
  simp only [ccfg_resource, cbook_word_in_group, h1]
  rw [if_neg (by simp [herr]), if_neg (by simp [hseq])]

/-- When the resource of the descriptor has values, `_fetch` converts and
stores the first word of the matched group. -/
theorem _fetch_value {Color : Type} (env : fetch_env Color) (ref : Nat)
    (st : config_state Color) (resource : _resource_t) (g : Nat) (herr : st.parser.err = 0)
    (hg : resolve st.parser.keys_sequences resource.nspace resource.name = some g)
    (hlen : 0 < cbook_group_length st.parser.sequences g) :
    (_fetch env ref st resource)._config =
      _fetch_switch env st._words ref st._config resource
        ((st.parser.sequences.groups.getD g []).getD 0 "") := by
  obtain ⟨htrue, hstr⟩ :=
    ccfg_iterate_fetch_value st.parser resource.nspace resource.name g herr hg hlen
  unfold _fetch ccfg_pick_next_resource_value ccfg_fetch_resource ccfg_get_resource_value
  rw [if_pos htrue, hstr]

/-- C15: for every descriptor, `_fetch` leaves the engine as one fetch
followed by one advance leave it; when the resource has no value (the engine
is in error, the pair is unmatched, or the matched group is empty) it writes
no destination, so each keeps the value it held, the default `config_load`
copied from `config_default`; and when the resource has values, the one value
converted and stored, at the target of the descriptor only, is the first
word of the matched group. -/
theorem _fetch_first_value {Color : Type} (env : fetch_env Color) (ref : Nat)
    (st : config_state Color) (resource : _resource_t) (hfit : st.parser.sequences.fits) :
    (_fetch env ref st resource).parser =
      (ccfg_iterate (ccfg_fetch st.parser resource.nspace resource.name)).2 ∧
    ((st.parser.err ≠ 0 ∨
        resolve st.parser.keys_sequences resource.nspace resource.name = none ∨
        ∃ g, resolve st.parser.keys_sequences resource.nspace resource.name = some g ∧
          cbook_group_length st.parser.sequences g = 0) →
      (_fetch env ref st resource)._config = st._config) ∧
    (∀ g, st.parser.err = 0 →
      resolve st.parser.keys_sequences resource.nspace resource.name = some g →
      0 < cbook_group_length st.parser.sequences g →
      (_fetch env ref st resource)._config =
        _fetch_switch env st._words ref st._config resource
          ((st.parser.sequences.groups.getD g []).getD 0 "") ∧
      ∀ t, t ≠ resource.target → (_fetch env ref st resource)._config t = st._config t) := by
  refine ⟨?_, ?_, ?_⟩
  · unfold _fetch ccfg_pick_next_resource_value ccfg_fetch_resource
    split <;> rfl
  · intro h
    have hfalse := ccfg_iterate_fetch_no_value st.parser resource.nspace resource.name hfit h
    unfold _fetch ccfg_pick_next_resource_value ccfg_fetch_resource
    rw [if_neg (by simp [hfalse])]
  · intro g herr hg hlen
    have hcfg := _fetch_value env ref st resource g herr hg hlen
    refine ⟨hcfg, ?_⟩
    intro t ht
    rw [hcfg]
    exact _fetch_switch_other env st._words ref st._config resource _ t ht

/-- C15 on the demo engine: `font.size` is matched to an empty group, and
`_fetch` leaves every destination as it was. -/
theorem _fetch_first_value_witness :
    demo_state.parser.sequences.fits ∧
    resolve demo_state.parser.keys_sequences "font" "size" = some 2 ∧
    cbook_group_length demo_state.parser.sequences 2 = 0 ∧
    (_fetch demo_env 0 demo_state
      { nspace := "font", name := "size", type := _value_t._LENGTH, target := 3 })._config =
      demo_state._config :=
  ⟨by decide, by decide, by decide,
   (_fetch_first_value demo_env 0 demo_state
      { nspace := "font", name := "size", type := _value_t._LENGTH, target := 3 }
      (by decide)).2.1 (Or.inr (Or.inr ⟨2, by decide, by decide⟩))⟩

theorem _fetch_antialias_rgb (ref : Nat) :
    (_fetch demo_env ref demo_state
      { nspace := "font", name := "antialias_mode", type := _value_t._ANTIALIAS,
        target := 5 })._config 5 = target_value.int (to_int ref) := by
  rw [_fetch_value demo_env ref demo_state
    { nspace := "font", name := "antialias_mode", type := _value_t._ANTIALIAS, target := 5 }
    0 (by decide) (by decide) (by decide)]
  have hfind : cobj_dictionary_find demo_state._words "rgb" _value_t._ANTIALIAS.toNat = none := by
    decide
  have hword : (demo_state.parser.sequences.groups.getD 0 []).getD 0 "" = "rgb" := by decide
  simp only [_fetch_switch, hword, hfind, Option.getD_none, Function.update_same]

/-- C16 evaluated on the demo engine, for every content `ref` of the
uninitialised local variable: `rgb` is not registered for the antialias
kind, and `_fetch` on the descriptor of `font.antialias_mode`, whose first
value is `rgb`, overwrites the destination, which held the code 11, with
`ref` (with 77 when `ref` is 77, so the destination does not keep its
value); on the descriptor of `font.subpixel_mode`, whose first value `bgr` is
registered, it stores the registered code 21. -/
theorem _fetch_unregistered_word (ref : Nat) :
    cobj_dictionary_find demo_state._words "rgb" _value_t._ANTIALIAS.toNat = none ∧
    demo_state._config 5 = target_value.int 11 ∧
    (_fetch demo_env ref demo_state
      { nspace := "font", name := "antialias_mode", type := _value_t._ANTIALIAS,
        target := 5 })._config 5 = target_value.int (to_int ref) ∧
    (_fetch demo_env 77 demo_state
      { nspace := "font", name := "antialias_mode", type := _value_t._ANTIALIAS,
        target := 5 })._config 5 ≠ demo_state._config 5 ∧
    (_fetch demo_env ref demo_state
      { nspace := "font", name := "subpixel_mode", type := _value_t._SUBPIXEL,
        target := 6 })._config 6 = target_value.int 21 := by
  refine ⟨by decide, rfl, _fetch_antialias_rgb ref, ?_, ?_⟩
  · rw [_fetch_antialias_rgb 77]
    intro h
    have h2 : to_int 77 = 11 := target_value.int.inj h
    exact absurd h2 (by decide)
  · rw [_fetch_value demo_env ref demo_state
      { nspace := "font", name := "subpixel_mode", type := _value_t._SUBPIXEL, target := 6 }
      1 (by decide) (by decide) (by decide)]
    have hfind : cobj_dictionary_find demo_state._words "bgr" _value_t._SUBPIXEL.toNat = some 21 := by
      decide
    have hword : (demo_state.parser.sequences.groups.getD 1 []).getD 0 "" = "bgr" := by decide
    simp only [_fetch_switch, hword, hfind, Option.getD_some, Function.update_same]
    rfl

/-! ## A context in error, a cleared context -/

/-- C17: on a context whose error state is non-zero, every call other than
`ccfg_repair` returns the context as it was: the pushes, the clears and
`ccfg_load` modify no collection, `ccfg_fetch` and `ccfg_iterate` leave the
cursor where it was, and `ccfg_iterate` returns false. -/
theorem ccfg_error_freezes (fopen : String → Bool)
    (file_parse_root : ccfg → String → cbook × cdict) (printf_f : Float → String)
    (call : ccfg_call) (cfg : ccfg) (herr : cfg.err ≠ 0) :
    call.run fopen file_parse_root printf_f cfg = cfg ∧
    ccfg_iterate cfg = (false, cfg) := by
  refine ⟨?_, ccfg_iterate_of_err cfg herr⟩
  cases call with
  | push_source filename alloc => exact ccfg_push_source_of_err cfg filename alloc herr
  | push_param_str name str alloc_book alloc_dict =>
    exact ccfg_push_param_str_of_err cfg name str alloc_book alloc_dict herr
  | push_param_long name l alloc_book alloc_dict =>
    exact ccfg_push_param_str_of_err cfg name _ alloc_book alloc_dict herr
  | push_param_double name d alloc_book alloc_dict =>
    exact ccfg_push_param_str_of_err cfg name _ alloc_book alloc_dict herr
  | clear_resources => exact ccfg_clear_resources_of_err cfg herr
  | clear_params => exact ccfg_clear_params_of_err cfg herr
  | clear_sources => exact ccfg_clear_sources_of_err cfg herr
  | fetch nspace property => exact ccfg_fetch_of_err cfg nspace property herr
  | iterate =>
    simp only [ccfg_call.run, ccfg_iterate_of_err cfg herr]
  | load => exact ccfg_load_of_err fopen file_parse_root cfg herr

/-- C17 at the demo context with an error bit set, on a filesystem where a
source opens: `ccfg_load` changes nothing. -/
theorem ccfg_error_freezes_witness :
    demo_failed.err ≠ 0 ∧
    (_select_source demo_fopen demo_failed).1 = "/etc/demo.conf" ∧
    ccfg_call.run demo_fopen demo_reader demo_printf_f ccfg_call.load demo_failed =
      demo_failed :=
  ⟨by decide, by decide,
   (ccfg_error_freezes demo_fopen demo_reader demo_printf_f ccfg_call.load demo_failed
      (by decide)).1⟩

theorem cbook_group_length_clear (book : cbook) (g : Nat) :
    cbook_group_length (cbook_clear book) g = 0 := by
  unfold cbook_group_length cbook_clear
  by_cases h : book.err = 0
  · simp [h]
  · simp [h]

theorem cbook_word_in_group_clear (book : cbook) (g i : Nat) :
    cbook_word_in_group (cbook_clear book) g i = "" := by
  unfold cbook_word_in_group cbook_clear
  by_cases h : book.err = 0
  · simp [h]
  · simp [h]

/-- C18: on an error-free context, whatever the cursor, `ccfg_clear_resources`
leaves `it_group` and `it` as they were, and afterwards, without a new fetch,
`ccfg_resource_length` returns 0, `ccfg_iterate` returns false and leaves the
context as it is, and `ccfg_resource` returns the empty string. -/
theorem ccfg_clear_resources_stale_cursor (cfg : ccfg) (herr : cfg.err = 0) :
    ((ccfg_clear_resources cfg).it_group = cfg.it_group ∧
      (ccfg_clear_resources cfg).it = cfg.it) ∧
    ccfg_resource_length (ccfg_clear_resources cfg) = 0 ∧
    ccfg_iterate (ccfg_clear_resources cfg) = (false, ccfg_clear_resources cfg) ∧
    ccfg_resource (ccfg_clear_resources cfg) = "" := by
  have hclear : ccfg_clear_resources cfg =
      { cfg with
        sequences := cbook_clear cfg.sequences
        keys_sequences := cdict_clear cfg.keys_sequences } := by
    unfold ccfg_clear_resources
    rw [if_neg (by simp [herr])]
  rw [hclear]
  refine ⟨⟨rfl, rfl⟩, ?_, ?_, ?_⟩
  · unfold ccfg_resource_length
    rw [if_neg (by simp [herr])]
    exact cbook_group_length_clear _ _
  · unfold ccfg_iterate
    rw [if_pos]
    right
    simp only [cbook_group_length_clear]
    exact Nat.zero_le _
  · unfold ccfg_resource
    rw [if_neg (by simp [herr])]
    exact cbook_word_in_group_clear _ _ _

/-- C18 at the demo context with the cursor on the first value of
`window.padding`: before the clear `ccfg_resource` is "4" and one more value
is left; after it the cursor is the same and `ccfg_resource` is empty. -/
theorem ccfg_clear_resources_stale_cursor_witness :
    ({ demo with it_group := 0, it := 1 } : ccfg).err = 0 ∧
    ccfg_resource { demo with it_group := 0, it := 1 } = "4" ∧
    (ccfg_iterate { demo with it_group := 0, it := 1 }).1 = true ∧
    (ccfg_clear_resources { demo with it_group := 0, it := 1 }).it = 1 ∧
    ccfg_resource (ccfg_clear_resources { demo with it_group := 0, it := 1 }) = "" :=
  ⟨by decide, by decide, by decide, by decide,
   (ccfg_clear_resources_stale_cursor { demo with it_group := 0, it := 1 } (by decide)).2.2.2⟩

end CCFG
